import Mathlib

/-!
# MediaPacket and MediaFrame (projects/base/media_route/media_buffer.h)

A shallow embedding of the two classes of `media_buffer.h`.

* `uint8_t` is `Fin 256`; `int32_t`, `int64_t` and `int` values are `Int`;
  `size_t` and `uint32_t` values are `Nat` (the only arithmetic on them, in
  `IncreaseOffset`, is reduced modulo `2 ^ 64`).
* A `const uint8_t *data` argument is the list of bytes readable from the
  pointer; the iterator range `[data, data + data_size)` exists only when
  `0 ≤ data_size ≤ data.length`.
* `std::vector<uint8_t>` is a list of elements together with a capacity; its
  `data()` is `nullptr` (`none`) as long as it owns no storage.
* `std::map<int32_t, T>` is an association list kept in key order.
* Calls whose behaviour the C++ standard leaves undefined (an iterator range
  outside the vector, an index past the end) return `none`.
* Arguments are not cut down to the range of their C++ type, so whatever is
  proved for every `Int` or `Nat` holds for every `int32_t` or `uint32_t`.
  `unsigned long` and `size_t` are taken to be 64 bits wide, and allocation is
  taken to succeed.
-/

namespace MediaBuffer

/-- One `uint8_t`. -/
abbrev Byte := Fin 256

/-! ## std::vector<uint8_t> -/

/-- A `std::vector<uint8_t>`: the elements it holds (`size()` of them) and the
storage it has reserved (`capacity()`). Growth takes the least capacity the
standard allows. -/
structure Vec where
  elems : List Byte
  capacity : Nat
deriving DecidableEq, Repr

namespace Vec

/-- A default-constructed vector. -/
def empty : Vec := ⟨[], 0⟩

/-- The member `size()`. -/
def size (v : Vec) : Nat := v.elems.length

/-- The member `data()`: `none`, for `nullptr`, when the vector owns no storage
(it holds no element and has reserved none, as after default construction);
otherwise the bytes readable through the returned pointer. -/
def data (v : Vec) : Option (List Byte) :=
  if v.elems = [] ∧ v.capacity = 0 then none else some v.elems

/-- The member `clear()`: drops the elements, keeps the storage. -/
def clear (v : Vec) : Vec := ⟨[], v.capacity⟩

/-- The member `insert(begin() + pos, first, last)` where `src` is the range
`[first, last)` and `pos ≤ size()`. -/
def insert (v : Vec) (pos : Nat) (src : List Byte) : Vec :=
  ⟨v.elems.take pos ++ src ++ v.elems.drop pos, max v.capacity (v.elems.length + src.length)⟩

/-- The member `push_back(byte)`. -/
def push_back (v : Vec) (byte : Byte) : Vec :=
  ⟨v.elems ++ [byte], max v.capacity (v.elems.length + 1)⟩

/-- The member `erase(begin() + first, begin() + last)` where
`first ≤ last ≤ size()`. -/
def erase (v : Vec) (first last : Nat) : Vec :=
  ⟨v.elems.take first ++ v.elems.drop last, v.capacity⟩

/-- The member `reserve(n)`: only the capacity may grow. -/
def reserve (v : Vec) (n : Nat) : Vec := ⟨v.elems, max v.capacity n⟩

/-- The member `resize(n)`: truncates, or appends value-initialised (zero)
bytes. -/
def resize (v : Vec) (n : Nat) : Vec :=
  ⟨v.elems.take n ++ List.replicate (n - v.elems.length) 0, max v.capacity n⟩

end Vec

/-! ## std::map<int32_t, T> -/

/-- The member `find(key)`: the mapped value, `none` for `cend()`. -/
def mapFind {α : Type} : List (Int × α) → Int → Option α
  | [], _ => none
  | (k, v) :: rest, key => if k = key then some v else mapFind rest key

/-- Stores `v` under `key`: replaces the mapped value of an existing entry,
otherwise adds the entry at its place in key order. -/
def mapInsert {α : Type} : List (Int × α) → Int → α → List (Int × α)
  | [], key, v => [(key, v)]
  | (k, x) :: rest, key, v =>
    if k = key then (k, v) :: rest
    else if key < k then (key, v) :: (k, x) :: rest
    else (k, x) :: mapInsert rest key v

/-- The value that `m[key]` refers to: the mapped value, or a
default-constructed one when `operator[]` has to add the entry. -/
def mapAt (m : List (Int × Vec)) (key : Int) : Vec :=
  (mapFind m key).getD Vec.empty

/-- The statement `m[key].g(...)`: `operator[]` adds a default-constructed
entry when `key` is absent, then `g` changes the mapped vector in place. -/
def mapModify (m : List (Int × Vec)) (key : Int) (g : Vec → Vec) : List (Int × Vec) :=
  mapInsert m key (g (mapAt m key))

/-! ## Types declared outside media_buffer.h -/

/-- Modelled from the spec: `MediaCommonType::MediaType` is declared in
media_type.h; the spec lists its values as Video, Audio, Data, Subtitle and
Unknown. -/
inductive MediaType where
  | Video
  | Audio
  | Data
  | Subtitle
  | Unknown
deriving DecidableEq, Repr

/-- Modelled from the spec: `MediaCommonType::AudioChannel::Layout` is declared
in media_type.h; the spec says it is an enum over standard channel layouts
whose default is mono. The layouts other than `LayoutMono` are kept by a
numeric code. -/
inductive Layout where
  | LayoutMono
  | LayoutOther (code : Nat)
deriving DecidableEq, Repr

/-- Modelled from the spec: `ov::Data` is the byte-buffer utility type, which
the spec treats as a growable byte container; only its contents are kept. -/
structure Data where
  bytes : List Byte
deriving DecidableEq, Repr

namespace Data

/-- Modelled from the spec: `ov::Data::CreateData()` makes a new, empty
buffer. -/
def CreateData : Data := ⟨[]⟩

/-- Modelled from the spec: `ov::Data::Append(ptr, size)` copies `size` bytes
starting at `ptr` onto the end of the buffer. There are `size` bytes to copy
only when `0 ≤ size ≤ data.length`. -/
def Append (d : Data) (data : List Byte) (data_size : Int) : Option Data :=
  if 0 ≤ data_size ∧ data_size ≤ (data.length : Int) then
    some ⟨d.bytes ++ data.take data_size.toNat⟩
  else none

/-- Modelled from the spec: `ov::Data::Append(otherBuffer)` appends the
contents of another, already existing shared buffer, which it reads (and may go
on sharing storage with, under the buffer's copy-on-write policy) but does not
write. The result is the buffer appended to, together with the other buffer
as the call leaves it. -/
def AppendData (d : Data) (other : Data) : Data × Data :=
  (⟨d.bytes ++ other.bytes⟩, other)

end Data

/-! ## MediaPacket -/

/-- The enum `MediaPacketFlag`. -/
inductive MediaPacketFlag where
  | NoFlag
  | Key
deriving DecidableEq, Repr

/-- The class `MediaPacket`. -/
structure MediaPacket where
  _media_type : MediaType
  _track_id : Int
  _data : Data
  _pts : Int
  _flags : MediaPacketFlag
deriving DecidableEq, Repr

namespace MediaPacket

/-- The constructor taking raw bytes: the member initialisers, then
`_data->Append(data, data_size)` on the buffer made by `CreateData()`. -/
def ofBytes (media_type : MediaType) (track_id : Int) (data : List Byte) (data_size : Int)
    (pts : Int) (flags : MediaPacketFlag) : Option MediaPacket :=
  match Data.CreateData.Append data data_size with
  | some d => some ⟨media_type, track_id, d, pts, flags⟩
  | none => none

/-- The constructor taking a shared buffer: the member initialisers, then
`_data->Append(data)`. The argument is a `shared_ptr` to a buffer the caller
keeps, so the constructed packet comes back together with that source buffer
as the constructor leaves it. -/
def ofData (media_type : MediaType) (track_id : Int) (data : Data)
    (pts : Int) (flags : MediaPacketFlag) : MediaPacket × Data :=
  (⟨media_type, track_id, (Data.CreateData.AppendData data).1, pts, flags⟩,
    (Data.CreateData.AppendData data).2)

def GetMediaType (p : MediaPacket) : MediaType := p._media_type

def GetData (p : MediaPacket) : Data := p._data

def GetPts (p : MediaPacket) : Int := p._pts

def GetTrackId (p : MediaPacket) : Int := p._track_id

def SetTrackId (p : MediaPacket) (track_id : Int) : MediaPacket :=
  { p with _track_id := track_id }

def GetFlags (p : MediaPacket) : MediaPacketFlag := p._flags

end MediaPacket

/-! ## MediaFrame -/

/-- The class `MediaFrame`. -/
structure MediaFrame where
  _data_buffer : List (Int × Vec)
  _media_type : MediaType
  _track_id : Int
  _pts : Int
  _offset : Nat
  _stride : List (Int × Int)
  _width : Int
  _height : Int
  _format : Int
  _bytes_per_sample : Int
  _nb_samples : Int
  _channels : Int
  _channel_layout : Layout
  _sample_rate : Int
  _flags : Int
deriving DecidableEq, Repr

namespace MediaFrame

/-- The defaulted constructor `MediaFrame()`: every member takes its default
member initialiser, both maps are empty. -/
def init : MediaFrame :=
  ⟨[], MediaType.Unknown, 0, 0, 0, [], 0, 0, 0, 0, 0, 0, Layout.LayoutMono, 0, 0⟩

/-- The private member `GetPlainData(plane)`: the plane's vector, `none` for
`nullptr`. -/
def GetPlainData (f : MediaFrame) (plane : Int) : Option Vec :=
  mapFind f._data_buffer plane

def ClearBuffer (f : MediaFrame) (plane : Int) : MediaFrame :=
  { f with _data_buffer := mapModify f._data_buffer plane Vec.clear }

/-- The member `SetBuffer(data, data_size, plane)`: `clear()`, then `insert` of
`[data, data + data_size)` at `end()`. -/
def SetBuffer (f : MediaFrame) (data : List Byte) (data_size : Int) (plane : Int) :
    Option MediaFrame :=
  let cleared := mapModify f._data_buffer plane Vec.clear
  if 0 ≤ data_size ∧ data_size ≤ (data.length : Int) then
    some { f with
      _data_buffer := mapModify cleared plane (fun v => v.insert v.size (data.take data_size.toNat)) }
  else none

/-- The member `AppendBuffer(data, data_size, plane)`: `insert` of
`[data, data + data_size)` at `end()`. -/
def AppendBuffer (f : MediaFrame) (data : List Byte) (data_size : Int) (plane : Int) :
    Option MediaFrame :=
  if 0 ≤ data_size ∧ data_size ≤ (data.length : Int) then
    some { f with
      _data_buffer := mapModify f._data_buffer plane (fun v => v.insert v.size (data.take data_size.toNat)) }
  else none

/-- The member `AppendBuffer(byte, plane)`: `push_back`. -/
def AppendByte (f : MediaFrame) (byte : Byte) (plane : Int) : MediaFrame :=
  { f with _data_buffer := mapModify f._data_buffer plane (fun v => v.push_back byte) }

/-- The member `InsertBuffer(offset, data, data_size, plane)`: `insert` of
`[data, data + data_size)` at `begin() + offset`, an iterator of the vector
only when `0 ≤ offset ≤ size()`. -/
def InsertBuffer (f : MediaFrame) (offset : Int) (data : List Byte) (data_size : Int)
    (plane : Int) : Option MediaFrame :=
  if 0 ≤ offset ∧ offset ≤ ((mapAt f._data_buffer plane).size : Int)
      ∧ 0 ≤ data_size ∧ data_size ≤ (data.length : Int) then
    some { f with
      _data_buffer := mapModify f._data_buffer plane (fun v => v.insert offset.toNat (data.take data_size.toNat)) }
  else none

/-- The const member `GetBuffer(plane)`: `list->data()` when the plane has an
entry, which is `nullptr` for a vector without storage; `nullptr` when it has
none. `none` stands for `nullptr`, `some bytes` for a pointer with `bytes`
readable behind it. -/
def GetBuffer (f : MediaFrame) (plane : Int) : Option (List Byte) :=
  match f.GetPlainData plane with
  | some list => list.data
  | none => none

/-- The non-const member `GetBuffer(plane)`: `_data_buffer[plane].data()`; the
frame after `operator[]` comes back with the pointer (`none` for `nullptr`). -/
def GetBufferMut (f : MediaFrame) (plane : Int) : MediaFrame × Option (List Byte) :=
  ({ f with _data_buffer := mapModify f._data_buffer plane id },
    (mapAt f._data_buffer plane).data)

/-- The member `GetByteAt(offset, plane)`: `(*list)[offset]`, an element of the
vector only when `0 ≤ offset < size()`; `0` when the plane has no entry. -/
def GetByteAt (f : MediaFrame) (offset : Int) (plane : Int) : Option Byte :=
  match f.GetPlainData plane with
  | some list => if 0 ≤ offset then list.elems[offset.toNat]? else none
  | none => some 0

def GetDataSize (f : MediaFrame) (plane : Int) : Nat :=
  match f.GetPlainData plane with
  | some list => list.size
  | none => 0

def GetBufferSize (f : MediaFrame) (plane : Int) : Nat :=
  match f.GetPlainData plane with
  | some list => list.size
  | none => 0

/-- The member `EraseBuffer(offset, length, plane)`: `erase` of
`[begin() + offset, begin() + offset + length)`, a range of the vector only
when `0 ≤ offset`, `0 ≤ length` and `offset + length ≤ size()`. -/
def EraseBuffer (f : MediaFrame) (offset : Int) (length : Int) (plane : Int) :
    Option MediaFrame :=
  if 0 ≤ offset ∧ 0 ≤ length ∧ offset + length ≤ ((mapAt f._data_buffer plane).size : Int) then
    some { f with
      _data_buffer := mapModify f._data_buffer plane (fun v => v.erase offset.toNat (offset + length).toNat) }
  else none

def Reserve (f : MediaFrame) (capacity : Nat) (plane : Int) : MediaFrame :=
  { f with _data_buffer := mapModify f._data_buffer plane (fun v => v.reserve capacity) }

def Resize (f : MediaFrame) (capacity : Nat) (plane : Int) : MediaFrame :=
  { f with _data_buffer := mapModify f._data_buffer plane (fun v => v.resize capacity) }

def SetMediaType (f : MediaFrame) (media_type : MediaType) : MediaFrame :=
  { f with _media_type := media_type }

def GetMediaType (f : MediaFrame) : MediaType := f._media_type

def SetTrackId (f : MediaFrame) (track_id : Int) : MediaFrame :=
  { f with _track_id := track_id }

def GetTrackId (f : MediaFrame) : Int := f._track_id

def GetPts (f : MediaFrame) : Int := f._pts

def SetPts (f : MediaFrame) (pts : Int) : MediaFrame := { f with _pts := pts }

def SetOffset (f : MediaFrame) (offset : Nat) : MediaFrame := { f with _offset := offset }

def GetOffset (f : MediaFrame) : Nat := f._offset

/-- The member `IncreaseOffset(delta)`: `_offset += delta` on a 64-bit
`size_t`. -/
def IncreaseOffset (f : MediaFrame) (delta : Nat) : MediaFrame :=
  { f with _offset := (f._offset + delta) % 2 ^ 64 }

def SetStride (f : MediaFrame) (stride : Int) (plane : Int) : MediaFrame :=
  { f with _stride := mapInsert f._stride plane stride }

def GetStride (f : MediaFrame) (plane : Int) : Int :=
  match mapFind f._stride plane with
  | none => 0
  | some stride => stride

def SetWidth (f : MediaFrame) (width : Int) : MediaFrame := { f with _width := width }

def GetWidth (f : MediaFrame) : Int := f._width

def SetHeight (f : MediaFrame) (height : Int) : MediaFrame := { f with _height := height }

def GetHeight (f : MediaFrame) : Int := f._height

def SetFormat (f : MediaFrame) (format : Int) : MediaFrame := { f with _format := format }

def GetFormat (f : MediaFrame) : Int := f._format

def GetBytesPerSample (f : MediaFrame) : Int := f._bytes_per_sample

def SetBytesPerSample (f : MediaFrame) (bytes_per_sample : Int) : MediaFrame :=
  { f with _bytes_per_sample := bytes_per_sample }

def GetNbSamples (f : MediaFrame) : Int := f._nb_samples

def SetNbSamples (f : MediaFrame) (nb_samples : Int) : MediaFrame :=
  { f with _nb_samples := nb_samples }

def GetChannels (f : MediaFrame) : Int := f._channels

def SetChannels (f : MediaFrame) (channels : Int) : MediaFrame :=
  { f with _channels := channels }

def GetChannelLayout (f : MediaFrame) : Layout := f._channel_layout

def SetChannelLayout (f : MediaFrame) (channel_layout : Layout) : MediaFrame :=
  { f with _channel_layout := channel_layout }

def GetSampleRate (f : MediaFrame) : Int := f._sample_rate

def SetSampleRate (f : MediaFrame) (sample_rate : Int) : MediaFrame :=
  { f with _sample_rate := sample_rate }

def SetFlags (f : MediaFrame) (flags : Int) : MediaFrame := { f with _flags := flags }

def GetFlags (f : MediaFrame) : Int := f._flags

/-- The constructor `MediaFrame(media_type, track_id, data, data_size, pts,
flags)`: the member initialisers, then `SetBuffer(data, data_size)` on
plane 0. -/
def create (media_type : MediaType) (track_id : Int) (data : List Byte) (data_size : Int)
    (pts : Int) (flags : Int) : Option MediaFrame :=
  SetBuffer { init with _media_type := media_type, _track_id := track_id, _flags := flags,
                        _pts := pts } data data_size 0

/-- The bytes held by a plane, as a reader sees them: `GetDataSize(plane)`
bytes behind the pointer of the const `GetBuffer(plane)`, none behind
`nullptr`. -/
def planeBytes (f : MediaFrame) (plane : Int) : List Byte :=
  match f.GetBuffer plane with
  | some bytes => bytes.take (f.GetDataSize plane)
  | none => []

/-- Plane `q` reads the same in `f2` as in `f`: the same entry (or none in
both), the same `GetDataSize(q)`, the same const `GetBuffer(q)` and the same
bytes. -/
abbrev planeKept (f f2 : MediaFrame) (q : Int) : Prop :=
  f2.GetPlainData q = f.GetPlainData q ∧ f2.GetDataSize q = f.GetDataSize q ∧
    f2.GetBuffer q = f.GetBuffer q ∧ f2.planeBytes q = f.planeBytes q

/-- A frame with three bytes in plane 0 (capacity 4), two bytes in plane 1 and
no other plane. -/
def sample : MediaFrame :=
  { init with _data_buffer := [(0, ⟨[10, 20, 30], 4⟩), (1, ⟨[1, 2], 2⟩)] }

end MediaFrame

/-! ## Calls of the two interfaces -/

namespace MediaPacket

/-- The non-const member `GetData()`: a reference to the member `_data`. The
caller reads the buffer through it and may store through it (by assigning the
pointer or by changing the buffer it points to); the second component is the
packet after such a store. -/
def GetDataMut (p : MediaPacket) : Data × (Data → MediaPacket) :=
  (p._data, fun d => { p with _data := d })

/-- One call of a public member on a constructed packet. `GetDataStore d` is a
call of the non-const `GetData()` followed by a store of `d` through the
returned reference. -/
inductive Call where
  | GetMediaType
  | GetDataConst
  | GetDataStore (d : Data)
  | GetPts
  | GetTrackId
  | SetTrackId (track_id : Int)
  | GetFlags
deriving DecidableEq, Repr

/-- The packet after a call; a const member leaves it as it is. -/
def after (p : MediaPacket) : Call → MediaPacket
  | Call.SetTrackId track_id => p.SetTrackId track_id
  | Call.GetDataStore d => p.GetDataMut.2 d
  | _ => p

end MediaPacket

namespace MediaFrame

/-- One call of a plane mutator, with its arguments. -/
inductive PlaneOp where
  | SetBuffer (data : List Byte) (data_size : Int) (plane : Int)
  | AppendBuffer (data : List Byte) (data_size : Int) (plane : Int)
  | AppendByte (byte : Byte) (plane : Int)
  | InsertBuffer (offset : Int) (data : List Byte) (data_size : Int) (plane : Int)
  | EraseBuffer (offset : Int) (length : Int) (plane : Int)
  | ClearBuffer (plane : Int)
  | Reserve (capacity : Nat) (plane : Int)
  | Resize (capacity : Nat) (plane : Int)
deriving DecidableEq, Repr

/-- The frame after one plane mutator, `none` when its arguments are out of
range. -/
def applyOp (f : MediaFrame) : PlaneOp → Option MediaFrame
  | PlaneOp.SetBuffer data data_size plane => f.SetBuffer data data_size plane
  | PlaneOp.AppendBuffer data data_size plane => f.AppendBuffer data data_size plane
  | PlaneOp.AppendByte byte plane => some (f.AppendByte byte plane)
  | PlaneOp.InsertBuffer offset data data_size plane => f.InsertBuffer offset data data_size plane
  | PlaneOp.EraseBuffer offset length plane => f.EraseBuffer offset length plane
  | PlaneOp.ClearBuffer plane => some (f.ClearBuffer plane)
  | PlaneOp.Reserve capacity plane => some (f.Reserve capacity plane)
  | PlaneOp.Resize capacity plane => some (f.Resize capacity plane)

/-- The frame after a sequence of plane mutators, run in order. -/
def applyOps : MediaFrame → List PlaneOp → Option MediaFrame
  | f, [] => some f
  | f, op :: rest =>
    match f.applyOp op with
    | some f1 => applyOps f1 rest
    | none => none

/-- One call of a non-const member of `MediaFrame`, with its arguments. -/
inductive FrameCall where
  | Plane (op : PlaneOp)
  | GetBufferMut (plane : Int)
  | SetMediaType (media_type : MediaType)
  | SetTrackId (track_id : Int)
  | SetPts (pts : Int)
  | SetOffset (offset : Nat)
  | IncreaseOffset (delta : Nat)
  | SetStride (stride : Int) (plane : Int)
  | SetWidth (width : Int)
  | SetHeight (height : Int)
  | SetFormat (format : Int)
  | SetBytesPerSample (bytes_per_sample : Int)
  | SetNbSamples (nb_samples : Int)
  | SetChannels (channels : Int)
  | SetChannelLayout (channel_layout : Layout)
  | SetSampleRate (sample_rate : Int)
  | SetFlags (flags : Int)
deriving DecidableEq, Repr

/-- The frame after one call of a non-const member. -/
def call (f : MediaFrame) : FrameCall → Option MediaFrame
  | FrameCall.Plane op => f.applyOp op
  | FrameCall.GetBufferMut plane => some (f.GetBufferMut plane).1
  | FrameCall.SetMediaType media_type => some (f.SetMediaType media_type)
  | FrameCall.SetTrackId track_id => some (f.SetTrackId track_id)
  | FrameCall.SetPts pts => some (f.SetPts pts)
  | FrameCall.SetOffset offset => some (f.SetOffset offset)
  | FrameCall.IncreaseOffset delta => some (f.IncreaseOffset delta)
  | FrameCall.SetStride stride plane => some (f.SetStride stride plane)
  | FrameCall.SetWidth width => some (f.SetWidth width)
  | FrameCall.SetHeight height => some (f.SetHeight height)
  | FrameCall.SetFormat format => some (f.SetFormat format)
  | FrameCall.SetBytesPerSample bytes_per_sample => some (f.SetBytesPerSample bytes_per_sample)
  | FrameCall.SetNbSamples nb_samples => some (f.SetNbSamples nb_samples)
  | FrameCall.SetChannels channels => some (f.SetChannels channels)
  | FrameCall.SetChannelLayout channel_layout => some (f.SetChannelLayout channel_layout)
  | FrameCall.SetSampleRate sample_rate => some (f.SetSampleRate sample_rate)
  | FrameCall.SetFlags flags => some (f.SetFlags flags)

/-- The frame after a sequence of calls, run in order. -/
def calls : MediaFrame → List FrameCall → Option MediaFrame
  | f, [] => some f
  | f, c :: rest =>
    match f.call c with
    | some f1 => calls f1 rest
    | none => none

/-- Whether a call is `SetStride(_, plane)`. -/
def FrameCall.setsStride (plane : Int) : FrameCall → Bool
  | FrameCall.SetStride _ q => decide (q = plane)
  | _ => false

/-- The accessors of a plane that the interface offers for reading. -/
inductive PlaneReader where
  | GetBufferConst
  | GetBufferMut
  | GetByteAt (offset : Int)
  | GetDataSize
  | GetBufferSize
deriving DecidableEq, Repr

/-- The frame after a read accessor was called on `plane`: a const member
leaves the frame as it is, the non-const `GetBuffer` goes through
`_data_buffer[plane]`. -/
def afterRead (f : MediaFrame) (plane : Int) : PlaneReader → MediaFrame
  | PlaneReader.GetBufferMut => (f.GetBufferMut plane).1
  | _ => f

/-- Modelled from the spec: `OV_ASSERT2` is defined outside media_buffer.h; the
spec calls it a debug-only defensive assertion. This is the condition
`_offset >= 0L` that `IncreaseOffset(delta)` hands to it after the addition:
the `long` zero is converted to `unsigned long` and compared with `_offset`. -/
def IncreaseOffsetAssert (f : MediaFrame) (delta : Nat) : Bool :=
  decide (((0 : Int) % 2 ^ 64).toNat ≤ (f.IncreaseOffset delta)._offset)

/-- The scalar members that have a setter and a getter. -/
inductive Field where
  | MediaType
  | TrackId
  | Pts
  | Offset
  | Width
  | Height
  | Format
  | BytesPerSample
  | NbSamples
  | Channels
  | ChannelLayout
  | SampleRate
  | Flags
deriving DecidableEq, Repr

/-- Every getter other than the one of `skip` returns in `f2` what it returns in
`f`, every stride is the same and every plane reads the same. -/
def othersKept (skip : Field) (f f2 : MediaFrame) : Prop :=
  (skip ≠ Field.MediaType → f2.GetMediaType = f.GetMediaType) ∧
  (skip ≠ Field.TrackId → f2.GetTrackId = f.GetTrackId) ∧
  (skip ≠ Field.Pts → f2.GetPts = f.GetPts) ∧
  (skip ≠ Field.Offset → f2.GetOffset = f.GetOffset) ∧
  (skip ≠ Field.Width → f2.GetWidth = f.GetWidth) ∧
  (skip ≠ Field.Height → f2.GetHeight = f.GetHeight) ∧
  (skip ≠ Field.Format → f2.GetFormat = f.GetFormat) ∧
  (skip ≠ Field.BytesPerSample → f2.GetBytesPerSample = f.GetBytesPerSample) ∧
  (skip ≠ Field.NbSamples → f2.GetNbSamples = f.GetNbSamples) ∧
  (skip ≠ Field.Channels → f2.GetChannels = f.GetChannels) ∧
  (skip ≠ Field.ChannelLayout → f2.GetChannelLayout = f.GetChannelLayout) ∧
  (skip ≠ Field.SampleRate → f2.GetSampleRate = f.GetSampleRate) ∧
  (skip ≠ Field.Flags → f2.GetFlags = f.GetFlags) ∧
  (∀ q : Int, f2.GetStride q = f.GetStride q) ∧
  (∀ q : Int, planeKept f f2 q)

end MediaFrame

/-! ## Lookup after a store -/

theorem mapFind_mapInsert_same {α : Type} (m : List (Int × α)) (key : Int) (v : α) :
    mapFind (mapInsert m key v) key = some v := by
  induction m with
  | nil => simp [mapInsert, mapFind]
  | cons hd tl ih =>
    obtain ⟨k, x⟩ := hd
    by_cases h1 : k = key
    · simp [mapInsert, mapFind, h1]
    · by_cases h2 : key < k
      · simp [mapInsert, mapFind, h1, h2]
      · simp [mapInsert, mapFind, h1, h2, ih]

theorem mapFind_mapInsert_other {α : Type} (m : List (Int × α)) (key q : Int) (v : α)
    (hne : key ≠ q) : mapFind (mapInsert m key v) q = mapFind m q := by
  induction m with
  | nil => simp [mapInsert, mapFind, hne]
  | cons hd tl ih =>
    obtain ⟨k, x⟩ := hd
    by_cases h1 : k = key
    · subst h1
      simp [mapInsert, mapFind, hne]
    · by_cases h2 : key < k
      · simp [mapInsert, mapFind, h1, h2, hne]
      · simp [mapInsert, mapFind, h1, h2, ih]

theorem mapFind_mapModify_same (m : List (Int × Vec)) (key : Int) (g : Vec → Vec) :
    mapFind (mapModify m key g) key = some (g (mapAt m key)) := by
  simp [mapModify, mapFind_mapInsert_same]

theorem mapFind_mapModify_other (m : List (Int × Vec)) (key q : Int) (g : Vec → Vec)
    (hne : key ≠ q) : mapFind (mapModify m key g) q = mapFind m q := by
  simp [mapModify, mapFind_mapInsert_other _ _ _ _ hne]

theorem mapAt_mapModify_same (m : List (Int × Vec)) (key : Int) (g : Vec → Vec) :
    mapAt (mapModify m key g) key = g (mapAt m key) := by
  simp [mapAt, mapFind_mapModify_same]

/-! ## The plane a mutator leaves behind -/

namespace MediaFrame

theorem SetBuffer_eq (f : MediaFrame) (data : List Byte) (n : Int) (p : Int)
    (h0 : 0 ≤ n) (h1 : n ≤ (data.length : Int)) :
    f.SetBuffer data n p = some { f with
      _data_buffer := mapModify (mapModify f._data_buffer p Vec.clear) p
        (fun v => v.insert v.size (data.take n.toNat)) } := by
  simp [SetBuffer, h0, h1]

theorem AppendBuffer_eq (f : MediaFrame) (data : List Byte) (n : Int) (p : Int)
    (h0 : 0 ≤ n) (h1 : n ≤ (data.length : Int)) :
    f.AppendBuffer data n p = some { f with
      _data_buffer := mapModify f._data_buffer p
        (fun v => v.insert v.size (data.take n.toNat)) } := by
  simp [AppendBuffer, h0, h1]

theorem InsertBuffer_eq (f : MediaFrame) (k : Int) (data : List Byte) (n : Int) (p : Int)
    (hk0 : 0 ≤ k) (hk1 : k ≤ ((mapAt f._data_buffer p).size : Int))
    (h0 : 0 ≤ n) (h1 : n ≤ (data.length : Int)) :
    f.InsertBuffer k data n p = some { f with
      _data_buffer := mapModify f._data_buffer p
        (fun v => v.insert k.toNat (data.take n.toNat)) } := by
  simp [InsertBuffer, hk0, hk1, h0, h1]

theorem EraseBuffer_eq (f : MediaFrame) (k len : Int) (p : Int)
    (hk0 : 0 ≤ k) (hl0 : 0 ≤ len) (hkl : k + len ≤ ((mapAt f._data_buffer p).size : Int)) :
    f.EraseBuffer k len p = some { f with
      _data_buffer := mapModify f._data_buffer p
        (fun v => v.erase k.toNat (k + len).toNat) } := by
  simp [EraseBuffer, hk0, hl0, hkl]

/-- What a reader sees of a plane is the element list of the vector `m[plane]`
would refer to. -/
theorem planeBytes_eq (f : MediaFrame) (p : Int) :
    f.planeBytes p = (mapAt f._data_buffer p).elems := by
  unfold planeBytes GetBuffer GetDataSize GetPlainData mapAt
  cases h : mapFind f._data_buffer p with
  | none => simp [Vec.empty]
  | some v =>
    by_cases hv : v.elems = [] ∧ v.capacity = 0
    · simp [Vec.data, hv]
    · simp [Vec.data, Vec.size, hv]

/-- The const `GetBuffer` either points at the bytes of the plane, or is
`nullptr` on a plane that holds no byte. -/
theorem GetBuffer_cases (f : MediaFrame) (p : Int) :
    f.GetBuffer p = some (f.planeBytes p) ∨ (f.planeBytes p = [] ∧ f.GetBuffer p = none) := by
  rw [planeBytes_eq]
  unfold GetBuffer GetPlainData mapAt
  cases h : mapFind f._data_buffer p with
  | none => right; simp [Vec.empty]
  | some v =>
    by_cases hv : v.elems = [] ∧ v.capacity = 0
    · right; simp [Vec.data, hv]
    · left; simp [Vec.data, hv]

theorem GetBuffer_cases_of_bytes (g : MediaFrame) (p : Int) (C : List Byte)
    (h : g.planeBytes p = C) : g.GetBuffer p = some C ∨ (C = [] ∧ g.GetBuffer p = none) := by
  rw [← h]
  exact GetBuffer_cases g p

theorem GetDataSize_eq (f : MediaFrame) (p : Int) :
    f.GetDataSize p = (mapAt f._data_buffer p).elems.length := by
  unfold GetDataSize GetPlainData mapAt
  cases h : mapFind f._data_buffer p <;> simp [Vec.empty, Vec.size]

end MediaFrame

/-! ## Properties of the plane operations and of packet construction -/

open MediaFrame

/-- C1: after `SetBuffer(B, len(B), p)` on any frame, the call has returned a
frame whose plane `p` reads back exactly `B`: the const `GetBuffer(p)` points at
`B` (for an empty `B` it may instead be `nullptr`, as it is on a plane that
never had storage), `GetDataSize(p)` is `len(B)`, the `GetDataSize(p)` bytes
behind the pointer are `B`, and `GetByteAt(i, p)` is `B[i]` for every
`i < len(B)`, whatever the plane held before. -/
theorem C1_SetBuffer_reads_back (f : MediaFrame) (B : List Byte) (p : Int) :
    ∃ f1 : MediaFrame, f.SetBuffer B (B.length : Int) p = some f1 ∧
      (f1.GetBuffer p = some B ∨ (B = [] ∧ f1.GetBuffer p = none)) ∧
      f1.GetDataSize p = B.length ∧
      f1.planeBytes p = B ∧
      ∀ i : Fin B.length, f1.GetByteAt ((i : Nat) : Int) p = some (B.get i) := by
  refine ⟨_, SetBuffer_eq f B _ p (by omega) (by omega), ?_, ?_, ?_, ?_⟩
  · apply GetBuffer_cases_of_bytes
    simp [planeBytes_eq, mapAt_mapModify_same, Vec.insert, Vec.clear, Vec.size]
  · simp [GetDataSize, GetPlainData, mapFind_mapModify_same, mapAt_mapModify_same,
      Vec.insert, Vec.clear, Vec.size]
  · simp [planeBytes_eq, mapAt_mapModify_same, Vec.insert, Vec.clear, Vec.size]
  · intro i
    simp [GetByteAt, GetPlainData, mapFind_mapModify_same, mapAt_mapModify_same,
      Vec.insert, Vec.clear, Vec.size]

/-- C2: after `SetBuffer(B1, len(B1), p)` followed by
`AppendBuffer(B2, len(B2), p)`, both calls have returned, `GetDataSize(p)` is
`len(B1) + len(B2)`, plane `p` holds `B1 ++ B2` (the const `GetBuffer(p)`
points at it, or is `nullptr` when it is empty), its first `len(B1)` bytes are
`B1` and the bytes after them are `B2`. -/
theorem C2_SetBuffer_AppendBuffer (f : MediaFrame) (B1 B2 : List Byte) (p : Int) :
    ∃ f1 f2 : MediaFrame, f.SetBuffer B1 (B1.length : Int) p = some f1 ∧
      f1.AppendBuffer B2 (B2.length : Int) p = some f2 ∧
      f2.GetDataSize p = B1.length + B2.length ∧
      (f2.GetBuffer p = some (B1 ++ B2) ∨ (B1 ++ B2 = [] ∧ f2.GetBuffer p = none)) ∧
      f2.planeBytes p = B1 ++ B2 ∧
      (f2.planeBytes p).take B1.length = B1 ∧
      (f2.planeBytes p).drop B1.length = B2 := by
  refine ⟨_, _, SetBuffer_eq f B1 _ p (by omega) (by omega),
    AppendBuffer_eq _ B2 _ p (by omega) (by omega), ?_, ?_, ?_, ?_, ?_⟩
  · simp [GetDataSize_eq, mapAt_mapModify_same, Vec.insert, Vec.clear, Vec.size]
  · apply GetBuffer_cases_of_bytes
    simp [planeBytes_eq, mapAt_mapModify_same, Vec.insert, Vec.clear, Vec.size]
  · simp [planeBytes_eq, mapAt_mapModify_same, Vec.insert, Vec.clear, Vec.size]
  · simp [planeBytes_eq, mapAt_mapModify_same, Vec.insert, Vec.clear, Vec.size]
  · simp [planeBytes_eq, mapAt_mapModify_same, Vec.insert, Vec.clear, Vec.size]

/-- C3: for an offset `k` with `0 ≤ k ≤ GetDataSize(p)`,
`InsertBuffer(k, D, len(D), p)` followed by `EraseBuffer(k, len(D), p)` both
return, and plane `p` then has exactly the bytes and the size it had before the
insert; the const `GetBuffer(p)` points at those bytes, or is `nullptr` when
there are none. -/
theorem C3_InsertBuffer_then_EraseBuffer (f : MediaFrame) (p : Int) (D : List Byte) (k : Int)
    (hk0 : 0 ≤ k) (hk : k ≤ (f.GetDataSize p : Int)) :
    ∃ f1 f2 : MediaFrame, f.InsertBuffer k D (D.length : Int) p = some f1 ∧
      f1.EraseBuffer k (D.length : Int) p = some f2 ∧
      f2.planeBytes p = f.planeBytes p ∧
      f2.GetDataSize p = f.GetDataSize p ∧
      (f2.GetBuffer p = some (f.planeBytes p) ∨
        (f.planeBytes p = [] ∧ f2.GetBuffer p = none)) := by
  obtain ⟨n, rfl⟩ := Int.eq_ofNat_of_zero_le hk0
  rw [GetDataSize_eq] at hk
  have hn : n ≤ (mapAt f._data_buffer p).elems.length := by exact_mod_cast hk
  have hcast : ((n : Int) + (D.length : Int)).toNat = n + D.length := by
    rw [← Nat.cast_add, Int.toNat_ofNat]
  have hkeep : (List.take n (mapAt f._data_buffer p).elems ++ D
        ++ List.drop n (mapAt f._data_buffer p).elems).take n
        ++ (List.take n (mapAt f._data_buffer p).elems ++ D
        ++ List.drop n (mapAt f._data_buffer p).elems).drop (n + D.length)
      = (mapAt f._data_buffer p).elems := by
    have h1 : (List.take n (mapAt f._data_buffer p).elems).length = n := by
      simp [List.length_take, hn]
    rw [List.append_assoc, List.take_left' h1, ← List.append_assoc,
      List.drop_left' (by simp [h1]), List.take_append_drop]
  refine ⟨_, _, InsertBuffer_eq f _ D _ p (by omega) (by simpa [Vec.size] using hn)
    (by omega) (by omega), EraseBuffer_eq _ _ _ p (by omega) (by omega) ?_, ?_, ?_, ?_⟩
  · simp only [mapAt_mapModify_same, Vec.insert, Vec.size, Int.toNat_ofNat, List.take_length]
    have : (List.take n (mapAt f._data_buffer p).elems ++ D
        ++ List.drop n (mapAt f._data_buffer p).elems).length
        = (mapAt f._data_buffer p).elems.length + D.length := by
      simp only [List.length_append, List.length_take, List.length_drop]
      omega
    rw [this]
    push_cast
    omega
  · simp only [planeBytes_eq, mapAt_mapModify_same, Vec.insert, Vec.erase, Int.toNat_ofNat,
      List.take_length, hcast]
    exact hkeep
  · simp only [GetDataSize_eq, mapAt_mapModify_same, Vec.insert, Vec.erase, Int.toNat_ofNat,
      List.take_length, hcast]
    rw [hkeep]
  · apply GetBuffer_cases_of_bytes
    simp only [planeBytes_eq, mapAt_mapModify_same, Vec.insert, Vec.erase, Int.toNat_ofNat,
      List.take_length, hcast]
    exact hkeep

/-- Witness for C3: on `sample`, whose plane 0 holds `[10, 20, 30]`, inserting
`[7, 8]` at offset 1 and then erasing 2 bytes at offset 1. -/
theorem C3_InsertBuffer_then_EraseBuffer_witness :
    ((0 : Int) ≤ 1 ∧ (1 : Int) ≤ (sample.GetDataSize 0 : Int)) ∧
    ∃ f1 f2 : MediaFrame,
      sample.InsertBuffer 1 [7, 8] (([7, 8] : List Byte).length : Int) 0 = some f1 ∧
      f1.EraseBuffer 1 (([7, 8] : List Byte).length : Int) 0 = some f2 ∧
      f2.planeBytes 0 = sample.planeBytes 0 ∧
      f2.GetDataSize 0 = sample.GetDataSize 0 ∧
      (f2.GetBuffer 0 = some (sample.planeBytes 0) ∨
        (sample.planeBytes 0 = [] ∧ f2.GetBuffer 0 = none)) :=
  ⟨by decide, C3_InsertBuffer_then_EraseBuffer sample 0 [7, 8] 1 (by decide) (by decide)⟩

theorem planeKept_of_mapFind (f f2 : MediaFrame) (q : Int)
    (h : mapFind f2._data_buffer q = mapFind f._data_buffer q) : planeKept f f2 q := by
  simp [planeKept, GetPlainData, GetDataSize, GetBuffer, planeBytes, h]

/-- C4: for planes `p ≠ q`, every plane mutator applied to plane `p` returns
(`SetBuffer` and `AppendBuffer` for a readable range, `InsertBuffer` and
`EraseBuffer` for in-range arguments) and leaves plane `q` as it was: the same
entry, `GetDataSize(q)`, `GetBuffer(q)` and bytes. -/
theorem C4_planes_independent (f : MediaFrame) (p q : Int) (hpq : p ≠ q) :
    (∀ (B : List Byte) (n : Int), 0 ≤ n → n ≤ (B.length : Int) →
      ∃ f2, f.SetBuffer B n p = some f2 ∧ planeKept f f2 q) ∧
    (∀ (B : List Byte) (n : Int), 0 ≤ n → n ≤ (B.length : Int) →
      ∃ f2, f.AppendBuffer B n p = some f2 ∧ planeKept f f2 q) ∧
    (∀ b : Byte, planeKept f (f.AppendByte b p) q) ∧
    (∀ (k : Int) (D : List Byte) (n : Int), 0 ≤ k → k ≤ (f.GetDataSize p : Int) →
      0 ≤ n → n ≤ (D.length : Int) →
      ∃ f2, f.InsertBuffer k D n p = some f2 ∧ planeKept f f2 q) ∧
    (∀ k len : Int, 0 ≤ k → 0 ≤ len → k + len ≤ (f.GetDataSize p : Int) →
      ∃ f2, f.EraseBuffer k len p = some f2 ∧ planeKept f f2 q) ∧
    planeKept f (f.ClearBuffer p) q ∧
    (∀ N : Nat, planeKept f (f.Reserve N p) q) ∧
    (∀ N : Nat, planeKept f (f.Resize N p) q) := by
  refine ⟨?_, ?_, ?_, ?_, ?_, ?_, ?_, ?_⟩
  · intro B n h0 h1
    exact ⟨_, SetBuffer_eq f B n p h0 h1, planeKept_of_mapFind _ _ _ (by
      simp [mapFind_mapModify_other _ _ _ _ hpq])⟩
  · intro B n h0 h1
    exact ⟨_, AppendBuffer_eq f B n p h0 h1, planeKept_of_mapFind _ _ _ (by
      simp [mapFind_mapModify_other _ _ _ _ hpq])⟩
  · intro b
    exact planeKept_of_mapFind _ _ _ (by simp [AppendByte, mapFind_mapModify_other _ _ _ _ hpq])
  · intro k D n hk0 hk h0 h1
    rw [GetDataSize_eq] at hk
    exact ⟨_, InsertBuffer_eq f k D n p hk0 (by simpa [Vec.size] using hk) h0 h1,
      planeKept_of_mapFind _ _ _ (by simp [mapFind_mapModify_other _ _ _ _ hpq])⟩
  · intro k len hk0 hl0 hkl
    rw [GetDataSize_eq] at hkl
    exact ⟨_, EraseBuffer_eq f k len p hk0 hl0 (by simpa [Vec.size] using hkl),
      planeKept_of_mapFind _ _ _ (by simp [mapFind_mapModify_other _ _ _ _ hpq])⟩
  · exact planeKept_of_mapFind _ _ _ (by simp [ClearBuffer, mapFind_mapModify_other _ _ _ _ hpq])
  · intro N
    exact planeKept_of_mapFind _ _ _ (by simp [Reserve, mapFind_mapModify_other _ _ _ _ hpq])
  · intro N
    exact planeKept_of_mapFind _ _ _ (by simp [Resize, mapFind_mapModify_other _ _ _ _ hpq])

/-- Witness for C4: mutating plane 1 of `sample` leaves plane 0 as it was, shown
for `ClearBuffer`, `Resize` and the single-byte `AppendBuffer`. -/
theorem C4_planes_independent_witness :
    (1 : Int) ≠ 0 ∧ planeKept sample (sample.ClearBuffer 1) 0 ∧
      planeKept sample (sample.Resize 7 1) 0 ∧ planeKept sample (sample.AppendByte 9 1) 0 :=
  ⟨by decide, (C4_planes_independent sample 1 0 (by decide)).2.2.2.2.2.1,
    (C4_planes_independent sample 1 0 (by decide)).2.2.2.2.2.2.2 7,
    (C4_planes_independent sample 1 0 (by decide)).2.2.1 9⟩

/-- C5: `Reserve(N, p)` leaves `GetDataSize(p)` at its value before the call,
which is 0 when plane `p` had no entry, and a following `Resize(N, p)` makes
`GetDataSize(p)` equal to `N`. -/
theorem C5_Reserve_then_Resize (f : MediaFrame) (N : Nat) (p : Int) :
    (f.Reserve N p).GetDataSize p = f.GetDataSize p ∧
    (f.GetPlainData p = none → (f.Reserve N p).GetDataSize p = 0) ∧
    ((f.Reserve N p).Resize N p).GetDataSize p = N := by
  refine ⟨?_, ?_, ?_⟩
  · simp [GetDataSize_eq, Reserve, mapAt_mapModify_same, Vec.reserve]
  · intro h
    simp only [GetPlainData] at h
    simp only [GetDataSize_eq, Reserve, mapAt_mapModify_same, Vec.reserve]
    simp [mapAt, h, Vec.empty]
  · simp only [GetDataSize_eq, Reserve, Resize, mapAt_mapModify_same, Vec.reserve, Vec.resize,
      List.length_append, List.length_take, List.length_replicate]
    omega

/-- Witness for C5: plane 5 of `sample` has no entry; after `Reserve(16, 5)` its
size is still 0, and `Resize(16, 5)` makes it 16. -/
theorem C5_Reserve_then_Resize_witness :
    sample.GetPlainData 5 = none ∧ (sample.Reserve 16 5).GetDataSize 5 = 0 ∧
      ((sample.Reserve 16 5).Resize 16 5).GetDataSize 5 = 16 :=
  ⟨by decide, (C5_Reserve_then_Resize sample 16 5).2.1 (by decide),
    (C5_Reserve_then_Resize sample 16 5).2.2⟩

/-- C6: after `ClearBuffer(p)`, `GetDataSize(p)` is 0, the plane map holds an
entry for `p` whose vector is empty, `GetBufferSize(p)` is 0 and the plane reads
as no bytes; the const and the non-const `GetBuffer(p)` return without failing,
either a pointer with no byte behind it or `nullptr`: `nullptr` when the plane
had no entry before (so on a default-constructed frame), the pointer of the
emptied vector when that vector had reserved storage; and a following
`AppendBuffer` or `SetBuffer` of any bytes `B` on plane `p` returns and leaves
`B` in the plane. -/
theorem C6_ClearBuffer_keeps_entry (f : MediaFrame) (p : Int) :
    (f.ClearBuffer p).GetDataSize p = 0 ∧
    (∃ v : Vec, (f.ClearBuffer p).GetPlainData p = some v ∧ v.elems = []) ∧
    (f.ClearBuffer p).GetBufferSize p = 0 ∧
    (f.ClearBuffer p).planeBytes p = [] ∧
    ((f.ClearBuffer p).GetBuffer p = some [] ∨ (f.ClearBuffer p).GetBuffer p = none) ∧
    (((f.ClearBuffer p).GetBufferMut p).2 = some [] ∨
      ((f.ClearBuffer p).GetBufferMut p).2 = none) ∧
    (f.GetPlainData p = none → (f.ClearBuffer p).GetBuffer p = none ∧
      ((f.ClearBuffer p).GetBufferMut p).2 = none) ∧
    (∀ v : Vec, f.GetPlainData p = some v → v.capacity ≠ 0 →
      (f.ClearBuffer p).GetBuffer p = some [] ∧
      ((f.ClearBuffer p).GetBufferMut p).2 = some []) ∧
    (MediaFrame.init.ClearBuffer p).GetBuffer p = none ∧
    (∀ B : List Byte, ∃ f2, (f.ClearBuffer p).AppendBuffer B (B.length : Int) p = some f2 ∧
      f2.planeBytes p = B) ∧
    (∀ B : List Byte, ∃ f2, (f.ClearBuffer p).SetBuffer B (B.length : Int) p = some f2 ∧
      f2.planeBytes p = B) := by
  have hbytes : (f.ClearBuffer p).planeBytes p = [] := by
    simp [planeBytes_eq, ClearBuffer, mapAt_mapModify_same, Vec.clear]
  have hconst : (f.ClearBuffer p).GetBuffer p = (mapAt f._data_buffer p).clear.data := by
    simp only [GetBuffer, GetPlainData, ClearBuffer, mapFind_mapModify_same]
  have hmut : ((f.ClearBuffer p).GetBufferMut p).2 = (mapAt f._data_buffer p).clear.data := by
    simp only [GetBufferMut, ClearBuffer, mapAt_mapModify_same]
  have hdata : (mapAt f._data_buffer p).clear.data
      = if (mapAt f._data_buffer p).capacity = 0 then none else some [] := by
    by_cases hc : (mapAt f._data_buffer p).capacity = 0 <;> simp [Vec.data, Vec.clear, hc]
  refine ⟨?_, ?_, ?_, hbytes, ?_, ?_, ?_, ?_, ?_, ?_, ?_⟩
  · simp [GetDataSize_eq, ClearBuffer, mapAt_mapModify_same, Vec.clear]
  · exact ⟨(mapAt f._data_buffer p).clear,
      by simp only [GetPlainData, ClearBuffer, mapFind_mapModify_same], rfl⟩
  · simp [GetBufferSize, GetPlainData, ClearBuffer, mapFind_mapModify_same, Vec.clear, Vec.size]
  · rw [hconst, hdata]
    by_cases hc : (mapAt f._data_buffer p).capacity = 0 <;> simp [hc]
  · rw [hmut, hdata]
    by_cases hc : (mapAt f._data_buffer p).capacity = 0 <;> simp [hc]
  · intro h
    have hfind : mapFind f._data_buffer p = none := h
    have hc : (mapAt f._data_buffer p).capacity = 0 := by simp [mapAt, hfind, Vec.empty]
    rw [hconst, hmut, hdata]
    simp [hc]
  · intro v hv hcap
    have hfind : mapFind f._data_buffer p = some v := hv
    have hc : (mapAt f._data_buffer p).capacity ≠ 0 := by simpa [mapAt, hfind] using hcap
    rw [hconst, hmut, hdata]
    simp [hc]
  · simp [GetBuffer, GetPlainData, ClearBuffer, mapFind_mapModify_same, mapAt, mapFind,
      MediaFrame.init, Vec.clear, Vec.data, Vec.empty]
  · intro B
    refine ⟨_, AppendBuffer_eq _ B _ p (by omega) (by omega), ?_⟩
    simp [planeBytes_eq, ClearBuffer, mapAt_mapModify_same, Vec.insert, Vec.clear, Vec.size]
  · intro B
    refine ⟨_, SetBuffer_eq _ B _ p (by omega) (by omega), ?_⟩
    simp [planeBytes_eq, mapAt_mapModify_same, Vec.insert, Vec.clear, Vec.size]

/-- Witness for C6: plane 5 of `sample` has no entry, and after `ClearBuffer(5)`
the const `GetBuffer(5)` is `nullptr`; plane 0 holds three bytes in storage for
four, and after `ClearBuffer(0)` the const `GetBuffer(0)` is a pointer with no
byte behind it. -/
theorem C6_ClearBuffer_keeps_entry_witness :
    (sample.GetPlainData 5 = none ∧ (sample.ClearBuffer 5).GetBuffer 5 = none) ∧
    (sample.GetPlainData 0 = some ⟨[10, 20, 30], 4⟩ ∧ (4 : Nat) ≠ 0 ∧
      (sample.ClearBuffer 0).GetBuffer 0 = some []) :=
  ⟨⟨by decide, ((C6_ClearBuffer_keeps_entry sample 5).2.2.2.2.2.2.1 (by decide)).1⟩,
    ⟨by decide, by decide,
      ((C6_ClearBuffer_keeps_entry sample 0).2.2.2.2.2.2.2.1 ⟨[10, 20, 30], 4⟩ (by decide)
        (by decide)).1⟩⟩

/-- C7: when the plane map has no entry for `p`, `GetDataSize(p)` and
`GetBufferSize(p)` are 0, the const `GetBuffer(p)` is `nullptr` and
`GetByteAt(offset, p)` is 0 for every offset; a default-constructed frame has
no entry for any plane index, negative ones included. -/
theorem C7_absent_plane_reads_empty (f : MediaFrame) (p : Int)
    (h : f.GetPlainData p = none) :
    f.GetDataSize p = 0 ∧ f.GetBufferSize p = 0 ∧ f.GetBuffer p = none ∧
      (∀ offset : Int, f.GetByteAt offset p = some 0) ∧
      (∀ q : Int, MediaFrame.init.GetPlainData q = none) := by
  refine ⟨?_, ?_, ?_, ?_, ?_⟩
  · simp [GetDataSize, h]
  · simp [GetBufferSize, h]
  · simp [GetBuffer, h]
  · intro offset
    simp [GetByteAt, h]
  · intro q
    rfl

/-- Witness for C7: plane -1 of a default-constructed frame. -/
theorem C7_absent_plane_reads_empty_witness :
    MediaFrame.init.GetPlainData (-1) = none ∧
      MediaFrame.init.GetDataSize (-1) = 0 ∧ MediaFrame.init.GetBufferSize (-1) = 0 ∧
      MediaFrame.init.GetBuffer (-1) = none ∧
      (∀ offset : Int, MediaFrame.init.GetByteAt offset (-1) = some 0) ∧
      (∀ q : Int, MediaFrame.init.GetPlainData q = none) :=
  ⟨by decide, C7_absent_plane_reads_empty MediaFrame.init (-1) (by decide)⟩

/-- C8: with `C` the bytes of plane `p` and `0 ≤ k ≤ len(C)`,
`InsertBuffer(k, D, len(D), p)` returns and plane `p` then holds exactly
`C[0..k) ++ D ++ C[k..)`: `GetDataSize(p)` is `len(C) + len(D)`, `GetByteAt`
reads that sequence, every byte before `k` is where it was and every byte
formerly at an index `i ≥ k` is at index `i + len(D)`. -/
theorem C8_InsertBuffer_splices (f : MediaFrame) (p : Int) (D : List Byte) (k : Int)
    (hk0 : 0 ≤ k) (hk : k ≤ ((f.planeBytes p).length : Int)) :
    ∃ f2 : MediaFrame, f.InsertBuffer k D (D.length : Int) p = some f2 ∧
      f2.planeBytes p
        = (f.planeBytes p).take k.toNat ++ D ++ (f.planeBytes p).drop k.toNat ∧
      f2.GetDataSize p = (f.planeBytes p).length + D.length ∧
      (∀ i : Nat, f2.GetByteAt (i : Int) p = (f2.planeBytes p)[i]?) ∧
      (∀ i : Nat, i < k.toNat → (f2.planeBytes p)[i]? = (f.planeBytes p)[i]?) ∧
      (∀ i : Nat, k.toNat ≤ i → (f2.planeBytes p)[i + D.length]? = (f.planeBytes p)[i]?) := by
  obtain ⟨n, rfl⟩ := Int.eq_ofNat_of_zero_le hk0
  rw [planeBytes_eq] at hk
  have hn : n ≤ (mapAt f._data_buffer p).elems.length := by exact_mod_cast hk
  have hlen : (List.take n (mapAt f._data_buffer p).elems).length = n := by
    simp [List.length_take, hn]
  refine ⟨_, InsertBuffer_eq f _ D _ p (by omega) (by simpa [Vec.size] using hn)
    (by omega) (by omega), ?_, ?_, ?_, ?_, ?_⟩
  · simp [planeBytes_eq, mapAt_mapModify_same, Vec.insert]
  · simp only [GetDataSize_eq, planeBytes_eq, mapAt_mapModify_same, Vec.insert,
      Int.toNat_ofNat, List.take_length, List.length_append, List.length_take,
      List.length_drop]
    omega
  · intro i
    simp [GetByteAt, GetPlainData, planeBytes_eq, mapFind_mapModify_same,
      mapAt_mapModify_same, Vec.insert]
  · intro i hi
    simp only [Int.toNat_ofNat] at hi
    simp only [planeBytes_eq, mapAt_mapModify_same, Vec.insert, Int.toNat_ofNat,
      List.take_length, List.append_assoc]
    rw [List.getElem?_append_left (by omega), List.getElem?_take, if_pos hi]
  · intro i hi
    simp only [Int.toNat_ofNat] at hi
    simp only [planeBytes_eq, mapAt_mapModify_same, Vec.insert, Int.toNat_ofNat,
      List.take_length]
    rw [List.getElem?_append_right (by simp only [List.length_append]; omega),
      List.getElem?_drop]
    congr 1
    simp only [List.length_append]
    omega

/-- Witness for C8: inserting `[7, 8]` at offset 1 of plane 0 of `sample`,
which holds `[10, 20, 30]`. -/
theorem C8_InsertBuffer_splices_witness :
    ((0 : Int) ≤ 1 ∧ (1 : Int) ≤ ((sample.planeBytes 0).length : Int)) ∧
    ∃ f2 : MediaFrame, sample.InsertBuffer 1 [7, 8] (([7, 8] : List Byte).length : Int) 0
        = some f2 ∧
      f2.planeBytes 0
        = (sample.planeBytes 0).take (1 : Int).toNat ++ [7, 8]
          ++ (sample.planeBytes 0).drop (1 : Int).toNat ∧
      f2.GetDataSize 0 = (sample.planeBytes 0).length + ([7, 8] : List Byte).length ∧
      (∀ i : Nat, f2.GetByteAt (i : Int) 0 = (f2.planeBytes 0)[i]?) ∧
      (∀ i : Nat, i < (1 : Int).toNat → (f2.planeBytes 0)[i]? = (sample.planeBytes 0)[i]?) ∧
      (∀ i : Nat, (1 : Int).toNat ≤ i →
        (f2.planeBytes 0)[i + ([7, 8] : List Byte).length]? = (sample.planeBytes 0)[i]?) :=
  ⟨by decide, C8_InsertBuffer_splices sample 0 [7, 8] 1 (by decide) (by decide)⟩

/-- C9: with `C` the bytes of plane `p`, `0 ≤ offset`, `0 ≤ length` and
`offset + length ≤ len(C)`, `EraseBuffer(offset, length, p)` returns and plane
`p` then holds exactly `C[0..offset) ++ C[offset+length..)`, so
`GetDataSize(p)` is `len(C) - length`; with `length = 0` the bytes are `C`
again and an existing entry is the same vector as before. -/
theorem C9_EraseBuffer_removes_range (f : MediaFrame) (p : Int) (offset length : Int)
    (ho : 0 ≤ offset) (hl : 0 ≤ length)
    (hol : offset + length ≤ ((f.planeBytes p).length : Int)) :
    ∃ f2 : MediaFrame, f.EraseBuffer offset length p = some f2 ∧
      f2.planeBytes p
        = (f.planeBytes p).take offset.toNat ++ (f.planeBytes p).drop (offset + length).toNat ∧
      f2.GetDataSize p = (f.planeBytes p).length - length.toNat ∧
      (length = 0 → f2.planeBytes p = f.planeBytes p ∧
        ∀ v : Vec, f.GetPlainData p = some v → f2.GetPlainData p = some v) := by
  obtain ⟨n, rfl⟩ := Int.eq_ofNat_of_zero_le ho
  obtain ⟨m, rfl⟩ := Int.eq_ofNat_of_zero_le hl
  rw [planeBytes_eq] at hol
  have hnm : n + m ≤ (mapAt f._data_buffer p).elems.length := by exact_mod_cast hol
  have hcast : ((n : Int) + (m : Int)).toNat = n + m := by
    rw [← Nat.cast_add, Int.toNat_ofNat]
  refine ⟨_, EraseBuffer_eq f _ _ p (by omega) (by omega) (by simpa [Vec.size] using hol),
    ?_, ?_, ?_⟩
  · simp [planeBytes_eq, mapAt_mapModify_same, Vec.erase]
  · simp only [GetDataSize_eq, planeBytes_eq, mapAt_mapModify_same, Vec.erase, hcast,
      Int.toNat_ofNat, List.length_append, List.length_take, List.length_drop]
    omega
  · intro hm
    have hm0 : m = 0 := by exact_mod_cast hm
    subst hm0
    refine ⟨?_, ?_⟩
    · simp [planeBytes_eq, mapAt_mapModify_same, Vec.erase]
    · intro v hv
      simp only [GetPlainData] at hv
      simp [GetPlainData, mapFind_mapModify_same, mapAt, hv, Vec.erase]

/-- Witness for C9: erasing 2 bytes at offset 1 of plane 0 of `sample`, which
holds `[10, 20, 30]`, leaves `[10]`. -/
theorem C9_EraseBuffer_removes_range_witness :
    ((0 : Int) ≤ 1 ∧ (0 : Int) ≤ 2 ∧ (1 : Int) + 2 ≤ ((sample.planeBytes 0).length : Int)) ∧
    ∃ f2 : MediaFrame, sample.EraseBuffer 1 2 0 = some f2 ∧
      f2.planeBytes 0
        = (sample.planeBytes 0).take (1 : Int).toNat
          ++ (sample.planeBytes 0).drop ((1 : Int) + 2).toNat ∧
      f2.GetDataSize 0 = (sample.planeBytes 0).length - (2 : Int).toNat ∧
      ((2 : Int) = 0 → f2.planeBytes 0 = sample.planeBytes 0 ∧
        ∀ v : Vec, sample.GetPlainData 0 = some v → f2.GetPlainData 0 = some v) :=
  ⟨by decide, C9_EraseBuffer_removes_range sample 0 1 2 (by decide) (by decide) (by decide)⟩

/-- C10: the packet constructed from raw bytes with
`(m, t, B, len(B), pts, f)` exists and has `GetMediaType() = m`,
`GetTrackId() = t`, `GetPts() = pts`, `GetFlags() = f` and `GetData()` holding
exactly `B`, of size `len(B)`; for bytes `[1, 2, 3]`, track 5, pts 1000 and
flag `Key` the getters give 5, 1000, `Key` and `[1, 2, 3]`. -/
theorem C10_MediaPacket_ofBytes (m : MediaType) (t : Int) (B : List Byte) (pts : Int)
    (fl : MediaPacketFlag) :
    (∃ pkt : MediaPacket, MediaPacket.ofBytes m t B (B.length : Int) pts fl = some pkt ∧
      pkt.GetMediaType = m ∧ pkt.GetTrackId = t ∧ pkt.GetPts = pts ∧ pkt.GetFlags = fl ∧
      pkt.GetData.bytes = B ∧ pkt.GetData.bytes.length = B.length) ∧
    (∃ pkt : MediaPacket,
      MediaPacket.ofBytes m 5 [1, 2, 3] 3 1000 MediaPacketFlag.Key = some pkt ∧
      pkt.GetMediaType = m ∧ pkt.GetTrackId = 5 ∧ pkt.GetPts = 1000 ∧
      pkt.GetFlags = MediaPacketFlag.Key ∧ pkt.GetData.bytes = [1, 2, 3]) := by
  constructor
  · refine ⟨⟨m, t, ⟨B⟩, pts, fl⟩, ?_, rfl, rfl, rfl, rfl, rfl, rfl⟩
    simp [MediaPacket.ofBytes, Data.Append, Data.CreateData]
  · refine ⟨⟨m, 5, ⟨[1, 2, 3]⟩, 1000, MediaPacketFlag.Key⟩, ?_, rfl, rfl, rfl, rfl, rfl⟩
    simp [MediaPacket.ofBytes, Data.Append, Data.CreateData]

/-! ## Properties of the remaining accessors -/

/-- C11, as written, fails: on the packet with bytes `[1, 2, 3]`, track 5, pts
1000 and flag `Key`, a call other than `SetTrackId`, the non-const `GetData()`
with a store through the reference it returns, changes the payload. -/
theorem C11_payload_changes_through_GetData :
    ((⟨MediaType.Video, 5, ⟨[1, 2, 3]⟩, 1000, MediaPacketFlag.Key⟩ : MediaPacket).after
        (MediaPacket.Call.GetDataStore ⟨[9]⟩)).GetData
      ≠ (⟨MediaType.Video, 5, ⟨[1, 2, 3]⟩, 1000, MediaPacketFlag.Key⟩ : MediaPacket).GetData := by
  decide

/-- C11, amended: after `SetTrackId(id)`, `GetTrackId()` is `id` while
`GetMediaType()`, `GetPts()`, `GetFlags()` and the contents of `GetData()` are
as before; no call of the interface changes the media type, the timestamp or
the flags; the payload is changed by no call other than a store through the
reference that the non-const `GetData()` returns, and the track id by no call
other than `SetTrackId`. -/
theorem C11_SetTrackId_and_fixed_fields (p : MediaPacket) (id : Int) :
    ((p.SetTrackId id).GetTrackId = id ∧
      (p.SetTrackId id).GetMediaType = p.GetMediaType ∧
      (p.SetTrackId id).GetPts = p.GetPts ∧
      (p.SetTrackId id).GetFlags = p.GetFlags ∧
      (p.SetTrackId id).GetData = p.GetData) ∧
    (∀ c : MediaPacket.Call, (p.after c).GetMediaType = p.GetMediaType ∧
      (p.after c).GetPts = p.GetPts ∧ (p.after c).GetFlags = p.GetFlags) ∧
    (∀ c : MediaPacket.Call, (∀ d : Data, c ≠ MediaPacket.Call.GetDataStore d) →
      (p.after c).GetData = p.GetData) ∧
    (∀ c : MediaPacket.Call, (∀ t : Int, c ≠ MediaPacket.Call.SetTrackId t) →
      (p.after c).GetTrackId = p.GetTrackId) ∧
    (∀ d : Data, (p.after (MediaPacket.Call.GetDataStore d)).GetData = d) := by
  refine ⟨⟨rfl, rfl, rfl, rfl, rfl⟩, ?_, ?_, ?_, ?_⟩
  · intro c
    cases c <;> exact ⟨rfl, rfl, rfl⟩
  · intro c hc
    cases c with
    | GetDataStore d => exact absurd rfl (hc d)
    | _ => rfl
  · intro c hc
    cases c with
    | SetTrackId t => exact absurd rfl (hc t)
    | _ => rfl
  · intro d
    rfl

/-- Witness for C11: `GetPts` is not a store through `GetData()`, so the payload
of the packet with bytes `[1, 2, 3]` is the same after it. -/
theorem C11_SetTrackId_and_fixed_fields_witness :
    (∀ d : Data, MediaPacket.Call.GetPts ≠ MediaPacket.Call.GetDataStore d) ∧
      ((⟨MediaType.Video, 5, ⟨[1, 2, 3]⟩, 1000, MediaPacketFlag.Key⟩ : MediaPacket).after
          MediaPacket.Call.GetPts).GetData = ⟨[1, 2, 3]⟩ :=
  ⟨fun _ h => MediaPacket.Call.noConfusion h,
    (C11_SetTrackId_and_fixed_fields ⟨MediaType.Video, 5, ⟨[1, 2, 3]⟩, 1000, MediaPacketFlag.Key⟩
      7).2.2.1 MediaPacket.Call.GetPts (fun _ h => MediaPacket.Call.noConfusion h)⟩

theorem applyOp_keeps_members (f f2 : MediaFrame) (op : PlaneOp) (h : f.applyOp op = some f2) :
    f2 = { f with _data_buffer := f2._data_buffer } := by
  cases op with
  | SetBuffer data n plane =>
    simp only [applyOp, SetBuffer] at h
    split at h
    · cases h; rfl
    · cases h
  | AppendBuffer data n plane =>
    simp only [applyOp, AppendBuffer] at h
    split at h
    · cases h; rfl
    · cases h
  | AppendByte b plane => simp only [applyOp] at h; cases h; rfl
  | InsertBuffer k data n plane =>
    simp only [applyOp, InsertBuffer] at h
    split at h
    · cases h; rfl
    · cases h
  | EraseBuffer k len plane =>
    simp only [applyOp, EraseBuffer] at h
    split at h
    · cases h; rfl
    · cases h
  | ClearBuffer plane => simp only [applyOp] at h; cases h; rfl
  | Reserve n plane => simp only [applyOp] at h; cases h; rfl
  | Resize n plane => simp only [applyOp] at h; cases h; rfl

theorem applyOps_keeps_members (ops : List PlaneOp) (f f2 : MediaFrame)
    (h : f.applyOps ops = some f2) : f2 = { f with _data_buffer := f2._data_buffer } := by
  induction ops generalizing f with
  | nil =>
    simp only [applyOps] at h
    cases h
    rfl
  | cons op rest ih =>
    simp only [applyOps] at h
    cases h1 : f.applyOp op with
    | none => rw [h1] at h; cases h
    | some f1 =>
      rw [h1] at h
      have e1 := applyOp_keeps_members f f1 op h1
      have e2 := ih f1 h
      rw [e2, e1]

/-- C12: on a frame on which `SetWidth(w)`, `SetHeight(h)`, `SetFormat(fmt)` and
`SetOffset(o)` were called, after any sequence of plane operations that all
return (their arguments are in range), `GetWidth()`, `GetHeight()`,
`GetFormat()` and `GetOffset()` are still `w`, `h`, `fmt` and `o`. -/
theorem C12_scalars_survive_plane_ops (f : MediaFrame) (w h fmt : Int) (o : Nat)
    (ops : List PlaneOp) (f2 : MediaFrame)
    (hrun : ((((f.SetWidth w).SetHeight h).SetFormat fmt).SetOffset o).applyOps ops = some f2) :
    f2.GetWidth = w ∧ f2.GetHeight = h ∧ f2.GetFormat = fmt ∧ f2.GetOffset = o := by
  have e := applyOps_keeps_members ops _ f2 hrun
  rw [e]
  exact ⟨rfl, rfl, rfl, rfl⟩

/-- Witness for C12: on `sample` with width 1920, height 1080, format 3 and
offset 7, a run of all eight plane mutators over planes 0, 1 and 2 returns and
the four scalars are as set. -/
theorem C12_scalars_survive_plane_ops_witness :
    ∃ f2 : MediaFrame,
      ((((sample.SetWidth 1920).SetHeight 1080).SetFormat 3).SetOffset 7).applyOps
        [PlaneOp.SetBuffer [1, 2, 3] 3 0, PlaneOp.AppendByte 4 0,
          PlaneOp.InsertBuffer 1 [9] 1 0, PlaneOp.EraseBuffer 0 2 0, PlaneOp.Reserve 64 1,
          PlaneOp.Resize 5 2, PlaneOp.ClearBuffer 1, PlaneOp.AppendBuffer [5, 6] 2 2]
        = some f2 ∧
      f2.GetWidth = 1920 ∧ f2.GetHeight = 1080 ∧ f2.GetFormat = 3 ∧ f2.GetOffset = 7 := by
  cases hrun : ((((sample.SetWidth 1920).SetHeight 1080).SetFormat 3).SetOffset 7).applyOps
      [PlaneOp.SetBuffer [1, 2, 3] 3 0, PlaneOp.AppendByte 4 0,
        PlaneOp.InsertBuffer 1 [9] 1 0, PlaneOp.EraseBuffer 0 2 0, PlaneOp.Reserve 64 1,
        PlaneOp.Resize 5 2, PlaneOp.ClearBuffer 1, PlaneOp.AppendBuffer [5, 6] 2 2] with
  | none => exact absurd hrun (by decide)
  | some f2 =>
    exact ⟨f2, rfl, C12_scalars_survive_plane_ops sample 1920 1080 3 7 _ f2 hrun⟩

/-- C13, as written, fails: with the cursor at `2 ^ 64 - 1`, `IncreaseOffset(1)`
wraps the 64-bit `size_t` and `GetOffset()` is 0, less than before. -/
theorem C13_IncreaseOffset_wraps :
    ((MediaFrame.init.SetOffset (2 ^ 64 - 1)).IncreaseOffset 1).GetOffset = 0 ∧
      ¬ ((MediaFrame.init.SetOffset (2 ^ 64 - 1)).GetOffset
          ≤ ((MediaFrame.init.SetOffset (2 ^ 64 - 1)).IncreaseOffset 1).GetOffset) := by
  constructor
  · simp [IncreaseOffset, SetOffset, GetOffset]
  · simp [IncreaseOffset, SetOffset, GetOffset]

/-- C13, amended: `GetOffset()` after `IncreaseOffset(delta)` is the sum of the
cursor and `delta` reduced modulo `2 ^ 64`; whenever that sum is below `2 ^ 64`
it is the sum itself, so it is greater than or equal to `GetOffset()` before
the call. -/
theorem C13_IncreaseOffset_monotone_without_wrap (f : MediaFrame) (delta : Nat) :
    (f.IncreaseOffset delta).GetOffset = (f.GetOffset + delta) % 2 ^ 64 ∧
    (f.GetOffset + delta < 2 ^ 64 →
      (f.IncreaseOffset delta).GetOffset = f.GetOffset + delta ∧
      f.GetOffset ≤ (f.IncreaseOffset delta).GetOffset) := by
  refine ⟨rfl, ?_⟩
  intro h
  have e : (f.IncreaseOffset delta).GetOffset = f.GetOffset + delta := by
    show (f._offset + delta) % 2 ^ 64 = f._offset + delta
    exact Nat.mod_eq_of_lt h
  exact ⟨e, by omega⟩

/-- Witness for C13: from a cursor of 7, `IncreaseOffset(5)` gives 12. -/
theorem C13_IncreaseOffset_monotone_without_wrap_witness :
    (MediaFrame.init.SetOffset 7).GetOffset + 5 < 2 ^ 64 ∧
      ((MediaFrame.init.SetOffset 7).IncreaseOffset 5).GetOffset
        = (MediaFrame.init.SetOffset 7).GetOffset + 5 ∧
      (MediaFrame.init.SetOffset 7).GetOffset
        ≤ ((MediaFrame.init.SetOffset 7).IncreaseOffset 5).GetOffset :=
  ⟨by decide, (C13_IncreaseOffset_monotone_without_wrap (MediaFrame.init.SetOffset 7) 5).2
    (by decide)⟩

/-- C14, as written, fails: a default-constructed frame has no entry for plane
0, and after the non-const `GetBuffer(0)` it has one. -/
theorem C14_mutable_GetBuffer_adds_entry :
    MediaFrame.init.GetPlainData 0 = none ∧
      (MediaFrame.init.afterRead 0 PlaneReader.GetBufferMut).GetPlainData 0 ≠ none := by
  decide

/-- C14, amended: when plane `p` has no entry, the const accessors (the const
`GetBuffer`, `GetByteAt`, `GetDataSize`, `GetBufferSize`) leave the frame
without one, while the non-const `GetBuffer` leaves an empty entry for `p`; an
entry for `p` is also there after `SetBuffer`, either `AppendBuffer`,
`InsertBuffer` at offset 0, `Resize`, `ClearBuffer`, `Reserve` and
`EraseBuffer` of the empty range. -/
theorem C14_entries_appear_on_non_const_calls (f : MediaFrame) (p : Int)
    (h : f.GetPlainData p = none) :
    (∀ r : PlaneReader, r ≠ PlaneReader.GetBufferMut → (f.afterRead p r).GetPlainData p = none) ∧
    (f.afterRead p PlaneReader.GetBufferMut).GetPlainData p = some Vec.empty ∧
    (∀ B : List Byte, ∃ f2, f.SetBuffer B (B.length : Int) p = some f2 ∧
      f2.GetPlainData p ≠ none) ∧
    (∀ B : List Byte, ∃ f2, f.AppendBuffer B (B.length : Int) p = some f2 ∧
      f2.GetPlainData p ≠ none) ∧
    (∀ b : Byte, (f.AppendByte b p).GetPlainData p ≠ none) ∧
    (∀ D : List Byte, ∃ f2, f.InsertBuffer 0 D (D.length : Int) p = some f2 ∧
      f2.GetPlainData p ≠ none) ∧
    (∀ N : Nat, (f.Resize N p).GetPlainData p ≠ none) ∧
    (f.ClearBuffer p).GetPlainData p ≠ none ∧
    (∀ N : Nat, (f.Reserve N p).GetPlainData p ≠ none) ∧
    (∃ f2, f.EraseBuffer 0 0 p = some f2 ∧ f2.GetPlainData p ≠ none) := by
  have hfind : mapFind f._data_buffer p = none := h
  refine ⟨?_, ?_, ?_, ?_, ?_, ?_, ?_, ?_, ?_, ?_⟩
  · intro r hr
    cases r with
    | GetBufferMut => exact absurd rfl hr
    | _ => exact h
  · simp [afterRead, GetBufferMut, GetPlainData, mapFind_mapModify_same, mapAt, hfind]
  · intro B
    exact ⟨_, SetBuffer_eq f B _ p (by omega) (by omega), by
      simp [GetPlainData, mapFind_mapModify_same]⟩
  · intro B
    exact ⟨_, AppendBuffer_eq f B _ p (by omega) (by omega), by
      simp [GetPlainData, mapFind_mapModify_same]⟩
  · intro b
    simp [AppendByte, GetPlainData, mapFind_mapModify_same]
  · intro D
    exact ⟨_, InsertBuffer_eq f 0 D _ p (by omega) (by omega) (by omega) (by omega), by
      simp [GetPlainData, mapFind_mapModify_same]⟩
  · intro N
    simp [Resize, GetPlainData, mapFind_mapModify_same]
  · simp [ClearBuffer, GetPlainData, mapFind_mapModify_same]
  · intro N
    simp [Reserve, GetPlainData, mapFind_mapModify_same]
  · exact ⟨_, EraseBuffer_eq f 0 0 p (by omega) (by omega) (by omega), by
      simp [GetPlainData, mapFind_mapModify_same]⟩

/-- Witness for C14: plane 5 of `sample`, which has no entry; `GetDataSize`
leaves it absent and `Resize(3, 5)` adds it. -/
theorem C14_entries_appear_on_non_const_calls_witness :
    sample.GetPlainData 5 = none ∧
      (sample.afterRead 5 PlaneReader.GetDataSize).GetPlainData 5 = none ∧
      (sample.afterRead 5 PlaneReader.GetBufferMut).GetPlainData 5 = some Vec.empty ∧
      (sample.Resize 3 5).GetPlainData 5 ≠ none :=
  ⟨by decide,
    (C14_entries_appear_on_non_const_calls sample 5 (by decide)).1 PlaneReader.GetDataSize
      (by decide),
    (C14_entries_appear_on_non_const_calls sample 5 (by decide)).2.1,
    (C14_entries_appear_on_non_const_calls sample 5 (by decide)).2.2.2.2.2.2.1 3⟩

theorem call_keeps_stride (f f1 : MediaFrame) (c : FrameCall) (p : Int)
    (h : f.call c = some f1) (hc : c.setsStride p = false) :
    mapFind f1._stride p = mapFind f._stride p := by
  cases c with
  | Plane op =>
    have e := applyOp_keeps_members f f1 op h
    rw [e]
  | SetStride s q =>
    have hq : q ≠ p := by simpa [FrameCall.setsStride] using hc
    simp only [call, Option.some.injEq] at h
    subst h
    exact mapFind_mapInsert_other _ _ _ _ hq
  | _ =>
    simp only [call, Option.some.injEq] at h
    subst h
    rfl

theorem calls_keep_stride (cs : List FrameCall) (f f2 : MediaFrame) (p : Int)
    (h : f.calls cs = some f2) (hcs : cs.all (fun c => !c.setsStride p) = true) :
    mapFind f2._stride p = mapFind f._stride p := by
  induction cs generalizing f with
  | nil =>
    simp only [calls, Option.some.injEq] at h
    subst h
    rfl
  | cons c rest ih =>
    simp only [List.all_cons, Bool.and_eq_true, Bool.not_eq_true'] at hcs
    simp only [calls] at h
    cases h1 : f.call c with
    | none => rw [h1] at h; cases h
    | some f1 =>
      rw [h1] at h
      rw [ih f1 h hcs.2, call_keeps_stride f f1 c p h1 hcs.1]

/-- C15: after `SetStride(s, p)`, `GetStride(p)` is `s` and `GetStride(q)` for
`q ≠ p` is as before; `GetStride` is 0 for every plane of a default-constructed
frame, and for plane `p` of any frame reached from a constructor by calls none
of which is `SetStride(_, p)`; no plane mutator changes any stride. -/
theorem C15_stride_per_plane (f : MediaFrame) (s : Int) (p q : Int) :
    (f.SetStride s p).GetStride p = s ∧
    (q ≠ p → (f.SetStride s p).GetStride q = f.GetStride q) ∧
    (∀ r : Int, MediaFrame.init.GetStride r = 0) ∧
    (∀ (cs : List FrameCall) (f2 : MediaFrame), MediaFrame.init.calls cs = some f2 →
      cs.all (fun c => !c.setsStride p) = true → f2.GetStride p = 0) ∧
    (∀ (m : MediaType) (t : Int) (data : List Byte) (n pts fl : Int) (f0 : MediaFrame)
      (cs : List FrameCall) (f2 : MediaFrame), MediaFrame.create m t data n pts fl = some f0 →
      f0.calls cs = some f2 → cs.all (fun c => !c.setsStride p) = true → f2.GetStride p = 0) ∧
    (∀ (op : PlaneOp) (f2 : MediaFrame), f.applyOp op = some f2 →
      ∀ r : Int, f2.GetStride r = f.GetStride r) := by
  refine ⟨?_, ?_, ?_, ?_, ?_, ?_⟩
  · simp [SetStride, GetStride, mapFind_mapInsert_same]
  · intro hq
    simp [SetStride, GetStride, mapFind_mapInsert_other _ _ _ _ (Ne.symm hq)]
  · intro r
    rfl
  · intro cs f2 hrun hcs
    have e := calls_keep_stride cs _ f2 p hrun hcs
    simp only [GetStride, e]
    rfl
  · intro m t data n pts fl f0 cs f2 hcreate hrun hcs
    have e := calls_keep_stride cs _ f2 p hrun hcs
    have e0 : f0._stride = [] := by
      have := applyOp_keeps_members _ f0 (PlaneOp.SetBuffer data n 0) hcreate
      rw [this]
      rfl
    simp only [GetStride, e, e0]
    rfl
  · intro op f2 hop r
    have e := applyOp_keeps_members f f2 op hop
    rw [e]
    rfl

/-- Witness for C15: on a default-constructed frame, `SetStride(640, 1)`, a
`Resize` of plane 0 and `SetWidth` leave `GetStride(0)` at 0 while
`GetStride(1)` is 640; and setting the stride of plane 1 of `sample` leaves that
of plane 0 as it was. -/
theorem C15_stride_per_plane_witness :
    ((sample.SetStride 640 1).GetStride 1 = 640 ∧
      ((0 : Int) ≠ 1 ∧ (sample.SetStride 640 1).GetStride 0 = sample.GetStride 0)) ∧
    ∃ f2 : MediaFrame,
      MediaFrame.init.calls [FrameCall.SetStride 640 1, FrameCall.Plane (PlaneOp.Resize 4 0),
        FrameCall.SetWidth 3] = some f2 ∧
      f2.GetStride 0 = 0 ∧ f2.GetStride 1 = 640 := by
  refine ⟨⟨(C15_stride_per_plane sample 640 1 0).1, by decide,
    (C15_stride_per_plane sample 640 1 0).2.1 (by decide)⟩, ?_⟩
  cases hrun : MediaFrame.init.calls [FrameCall.SetStride 640 1,
      FrameCall.Plane (PlaneOp.Resize 4 0), FrameCall.SetWidth 3] with
  | none => exact absurd hrun (by decide)
  | some f2 =>
    refine ⟨f2, rfl, (C15_stride_per_plane sample 640 0 0).2.2.2.1 _ f2 hrun (by decide), ?_⟩
    have e : some f2 = MediaFrame.init.calls [FrameCall.SetStride 640 1,
        FrameCall.Plane (PlaneOp.Resize 4 0), FrameCall.SetWidth 3] := hrun.symm
    have e2 : MediaFrame.init.calls [FrameCall.SetStride 640 1,
        FrameCall.Plane (PlaneOp.Resize 4 0), FrameCall.SetWidth 3]
        = some (((MediaFrame.init.SetStride 640 1).Resize 4 0).SetWidth 3) := by decide
    rw [e2] at e
    cases e
    decide

theorem othersKept_of_members (skip : Field) (f f2 : MediaFrame)
    (h1 : skip ≠ Field.MediaType → f2._media_type = f._media_type)
    (h2 : skip ≠ Field.TrackId → f2._track_id = f._track_id)
    (h3 : skip ≠ Field.Pts → f2._pts = f._pts)
    (h4 : skip ≠ Field.Offset → f2._offset = f._offset)
    (h5 : skip ≠ Field.Width → f2._width = f._width)
    (h6 : skip ≠ Field.Height → f2._height = f._height)
    (h7 : skip ≠ Field.Format → f2._format = f._format)
    (h8 : skip ≠ Field.BytesPerSample → f2._bytes_per_sample = f._bytes_per_sample)
    (h9 : skip ≠ Field.NbSamples → f2._nb_samples = f._nb_samples)
    (h10 : skip ≠ Field.Channels → f2._channels = f._channels)
    (h11 : skip ≠ Field.ChannelLayout → f2._channel_layout = f._channel_layout)
    (h12 : skip ≠ Field.SampleRate → f2._sample_rate = f._sample_rate)
    (h13 : skip ≠ Field.Flags → f2._flags = f._flags)
    (hs : f2._stride = f._stride) (hb : f2._data_buffer = f._data_buffer) :
    othersKept skip f f2 := by
  refine ⟨h1, h2, h3, h4, h5, h6, h7, h8, h9, h10, h11, h12, h13, ?_, ?_⟩
  · intro q
    simp only [GetStride, hs]
  · intro q
    exact planeKept_of_mapFind f f2 q (by rw [hb])

/-- C16: each of the thirteen metadata setters of `MediaFrame` stores its
argument, whatever the value: the matching getter then returns exactly that
value, and every other getter, every stride and the entry, size and bytes of
every plane are as before. -/
theorem C16_setters_are_plain (f : MediaFrame) :
    (∀ v : MediaType, (f.SetMediaType v).GetMediaType = v ∧ othersKept Field.MediaType f (f.SetMediaType v)) ∧
    (∀ v : Int, (f.SetTrackId v).GetTrackId = v ∧ othersKept Field.TrackId f (f.SetTrackId v)) ∧
    (∀ v : Int, (f.SetPts v).GetPts = v ∧ othersKept Field.Pts f (f.SetPts v)) ∧
    (∀ v : Nat, (f.SetOffset v).GetOffset = v ∧ othersKept Field.Offset f (f.SetOffset v)) ∧
    (∀ v : Int, (f.SetWidth v).GetWidth = v ∧ othersKept Field.Width f (f.SetWidth v)) ∧
    (∀ v : Int, (f.SetHeight v).GetHeight = v ∧ othersKept Field.Height f (f.SetHeight v)) ∧
    (∀ v : Int, (f.SetFormat v).GetFormat = v ∧ othersKept Field.Format f (f.SetFormat v)) ∧
    (∀ v : Int, (f.SetBytesPerSample v).GetBytesPerSample = v ∧ othersKept Field.BytesPerSample f (f.SetBytesPerSample v)) ∧
    (∀ v : Int, (f.SetNbSamples v).GetNbSamples = v ∧ othersKept Field.NbSamples f (f.SetNbSamples v)) ∧
    (∀ v : Int, (f.SetChannels v).GetChannels = v ∧ othersKept Field.Channels f (f.SetChannels v)) ∧
    (∀ v : Layout, (f.SetChannelLayout v).GetChannelLayout = v ∧ othersKept Field.ChannelLayout f (f.SetChannelLayout v)) ∧
    (∀ v : Int, (f.SetSampleRate v).GetSampleRate = v ∧ othersKept Field.SampleRate f (f.SetSampleRate v)) ∧
    (∀ v : Int, (f.SetFlags v).GetFlags = v ∧ othersKept Field.Flags f (f.SetFlags v)) := by
  refine ⟨?_, ?_, ?_, ?_, ?_, ?_, ?_, ?_, ?_, ?_, ?_, ?_, ?_⟩ <;> intro v <;>
    refine ⟨rfl, othersKept_of_members _ _ _ ?_ ?_ ?_ ?_ ?_ ?_ ?_ ?_ ?_ ?_ ?_ ?_ ?_ rfl rfl⟩ <;>
    intro hne <;> first | rfl | exact absurd rfl hne

/-- Witness for C16: `SetChannels(-3)` on `sample` makes `GetChannels()` return
-3 and leaves `GetChannelLayout()` as it was. -/
theorem C16_setters_are_plain_witness :
    (sample.SetChannels (-3)).GetChannels = -3 ∧ Field.Channels ≠ Field.ChannelLayout ∧
      (sample.SetChannels (-3)).GetChannelLayout = sample.GetChannelLayout :=
  ⟨((C16_setters_are_plain sample).2.2.2.2.2.2.2.2.2.1 (-3)).1, by decide,
    ((C16_setters_are_plain sample).2.2.2.2.2.2.2.2.2.1 (-3)).2.2.2.2.2.2.2.2.2.2.2.1
      (by decide)⟩

/-- C17: for every plane index, `GetDataSize(p)` and `GetBufferSize(p)` are
equal; without an entry both are 0, and with an entry both are the number of
elements its vector holds, which is exactly the range of offsets at which
`GetByteAt` reads a byte. After `Reserve(N, p)` with `N` above that number both
still return it and the vector holds the same elements, although its capacity
is then at least `N`, above the size. -/
theorem C17_sizes_agree (f : MediaFrame) (p : Int) :
    f.GetDataSize p = f.GetBufferSize p ∧
    (f.GetPlainData p = none → f.GetDataSize p = 0 ∧ f.GetBufferSize p = 0) ∧
    (∀ v : Vec, f.GetPlainData p = some v →
      f.GetDataSize p = v.elems.length ∧ f.GetBufferSize p = v.elems.length ∧
      ∀ i : Nat, (f.GetByteAt (i : Int) p).isSome = true ↔ i < f.GetDataSize p) ∧
    (∀ N : Nat, f.GetDataSize p < N →
      ∃ v2 : Vec, (f.Reserve N p).GetPlainData p = some v2 ∧
        (f.Reserve N p).GetDataSize p = v2.elems.length ∧
        (f.Reserve N p).GetBufferSize p = v2.elems.length ∧
        v2.elems.length = f.GetDataSize p ∧
        (∀ v : Vec, f.GetPlainData p = some v → v2.elems = v.elems) ∧
        N ≤ v2.capacity ∧ v2.elems.length < v2.capacity) := by
  refine ⟨rfl, ?_, ?_, ?_⟩
  · intro h
    simp [GetDataSize, GetBufferSize, h]
  · intro v hv
    refine ⟨?_, ?_, ?_⟩
    · simp [GetDataSize, hv, Vec.size]
    · simp [GetBufferSize, hv, Vec.size]
    · intro i
      simp only [GetByteAt, GetDataSize, hv, Vec.size, Int.natCast_nonneg, if_true,
        Int.toNat_ofNat]
      constructor
      · intro h
        by_contra hlt
        rw [List.getElem?_eq_none (by omega)] at h
        cases h
      · intro h
        rw [List.getElem?_eq_getElem h]
        rfl
  · intro N hN
    have hsize : (f.Reserve N p).GetDataSize p = f.GetDataSize p := by
      simp [GetDataSize_eq, Reserve, mapAt_mapModify_same, Vec.reserve]
    have hold : f.GetDataSize p = (mapAt f._data_buffer p).elems.length := GetDataSize_eq f p
    refine ⟨(mapAt f._data_buffer p).reserve N, ?_, ?_, ?_, ?_, ?_, ?_, ?_⟩
    · simp only [GetPlainData, Reserve, mapFind_mapModify_same]
    · rw [hsize, hold]
      rfl
    · show (f.Reserve N p).GetDataSize p = _
      rw [hsize, hold]
      rfl
    · rw [hold]
      rfl
    · intro v hv
      have hfind : mapFind f._data_buffer p = some v := hv
      simp [Vec.reserve, mapAt, hfind]
    · simp [Vec.reserve]
    · rw [hold] at hN
      simp only [Vec.reserve]
      omega

/-- Witness for C17: plane 0 of `sample` holds the 3 bytes `[10, 20, 30]` and
both size queries return 3; after `Reserve(100, 0)` they still do, with the same
bytes in a vector of capacity at least 100; plane 5 has no entry and size 0. -/
theorem C17_sizes_agree_witness :
    (sample.GetPlainData 5 = none ∧ sample.GetDataSize 5 = 0 ∧ sample.GetBufferSize 5 = 0) ∧
    (sample.GetPlainData 0 = some ⟨[10, 20, 30], 4⟩ ∧
      sample.GetDataSize 0 = ([10, 20, 30] : List Byte).length ∧
      sample.GetBufferSize 0 = ([10, 20, 30] : List Byte).length) ∧
    (sample.GetDataSize 0 < 100 ∧
      ∃ v2 : Vec, (sample.Reserve 100 0).GetPlainData 0 = some v2 ∧
        (sample.Reserve 100 0).GetDataSize 0 = v2.elems.length ∧
        (sample.Reserve 100 0).GetBufferSize 0 = v2.elems.length ∧
        v2.elems.length = sample.GetDataSize 0 ∧
        (∀ v : Vec, sample.GetPlainData 0 = some v → v2.elems = v.elems) ∧
        100 ≤ v2.capacity ∧ v2.elems.length < v2.capacity) :=
  ⟨⟨by decide, (C17_sizes_agree sample 5).2.1 (by decide)⟩,
    ⟨by decide, ((C17_sizes_agree sample 0).2.2.1 ⟨[10, 20, 30], 4⟩ (by decide)).1,
      ((C17_sizes_agree sample 0).2.2.1 ⟨[10, 20, 30], 4⟩ (by decide)).2.1⟩,
    ⟨by decide, (C17_sizes_agree sample 0).2.2.2 100 (by decide)⟩⟩

/-- C18: for a source buffer `src` holding the bytes `B`, the packet
constructed from the raw bytes `B` exists and is the packet constructed from
`src`: both have `GetMediaType() = m`, `GetTrackId() = t`, `GetPts() = pts`,
`GetFlags() = fl` and `GetData()` holding exactly `B`; and the constructor
leaves the source buffer as it was, still holding `B`. -/
theorem C18_constructors_agree (m : MediaType) (t pts : Int) (fl : MediaPacketFlag)
    (src : Data) :
    MediaPacket.ofBytes m t src.bytes (src.bytes.length : Int) pts fl
      = some (MediaPacket.ofData m t src pts fl).1 ∧
    (MediaPacket.ofData m t src pts fl).1.GetMediaType = m ∧
    (MediaPacket.ofData m t src pts fl).1.GetTrackId = t ∧
    (MediaPacket.ofData m t src pts fl).1.GetPts = pts ∧
    (MediaPacket.ofData m t src pts fl).1.GetFlags = fl ∧
    (MediaPacket.ofData m t src pts fl).1.GetData.bytes = src.bytes ∧
    (MediaPacket.ofData m t src pts fl).2 = src ∧
    (MediaPacket.ofData m t src pts fl).2.bytes = src.bytes := by
  refine ⟨?_, rfl, rfl, rfl, rfl, ?_, rfl, rfl⟩
  · simp [MediaPacket.ofBytes, MediaPacket.ofData, Data.Append, Data.AppendData,
      Data.CreateData]
  · simp [MediaPacket.ofData, MediaPacket.GetData, Data.AppendData, Data.CreateData]

/-- C19: the condition `_offset >= 0L` that `IncreaseOffset(delta)` asserts
after the addition holds for every frame and every `delta`; the cursor is
non-negative (and below `2 ^ 64`) after every advance, and it is non-negative,
with the assertion holding on the next advance, in every frame reached by any
sequence of calls. -/
theorem C19_IncreaseOffset_assertion_holds (f : MediaFrame) (delta : Nat) :
    f.IncreaseOffsetAssert delta = true ∧
    (0 : Int) ≤ ((f.IncreaseOffset delta).GetOffset : Int) ∧
    (f.IncreaseOffset delta).GetOffset < 2 ^ 64 ∧
    (∀ (cs : List FrameCall) (f2 : MediaFrame), f.calls cs = some f2 →
      (0 : Int) ≤ (f2.GetOffset : Int) ∧ ∀ d : Nat, f2.IncreaseOffsetAssert d = true) := by
  have hassert : ∀ (g : MediaFrame) (d : Nat), g.IncreaseOffsetAssert d = true := by
    intro g d
    simp [IncreaseOffsetAssert]
  refine ⟨hassert f delta, Int.natCast_nonneg _, ?_, ?_⟩
  · show (f._offset + delta) % 2 ^ 64 < 2 ^ 64
    exact Nat.mod_lt _ (by positivity)
  · intro cs f2 _
    exact ⟨Int.natCast_nonneg _, hassert f2⟩

/-- Witness for C19: after `SetOffset(2 ^ 64 - 1)` and `IncreaseOffset(1)` on a
default-constructed frame the cursor is non-negative and the assertion holds
for a next advance by 5. -/
theorem C19_IncreaseOffset_assertion_holds_witness :
    ∃ f2 : MediaFrame,
      MediaFrame.init.calls [FrameCall.SetOffset (2 ^ 64 - 1), FrameCall.IncreaseOffset 1]
        = some f2 ∧
      (0 : Int) ≤ (f2.GetOffset : Int) ∧ f2.IncreaseOffsetAssert 5 = true :=
  ⟨(MediaFrame.init.SetOffset (2 ^ 64 - 1)).IncreaseOffset 1, rfl,
    ((C19_IncreaseOffset_assertion_holds MediaFrame.init 0).2.2.2
      [FrameCall.SetOffset (2 ^ 64 - 1), FrameCall.IncreaseOffset 1]
      ((MediaFrame.init.SetOffset (2 ^ 64 - 1)).IncreaseOffset 1) rfl).1,
    ((C19_IncreaseOffset_assertion_holds MediaFrame.init 0).2.2.2
      [FrameCall.SetOffset (2 ^ 64 - 1), FrameCall.IncreaseOffset 1]
      ((MediaFrame.init.SetOffset (2 ^ 64 - 1)).IncreaseOffset 1) rfl).2 5⟩

/-- C20: with `C` the bytes of plane `p`, after `Resize(N, p)` the plane holds
`C` cut to `N` bytes followed by `N - len(C)` zero bytes: `GetDataSize(p)` is
`N`, the first `min(N, len(C))` bytes are those of `C`, every byte at an index
`i` with `len(C) ≤ i < N` is 0, a plane that had no entry holds `N` zero bytes,
and for `N ≤ len(C)` the plane is `C` truncated to `N` bytes. -/
theorem C20_Resize_keeps_prefix_zero_fills (f : MediaFrame) (p : Int) (N : Nat) :
    (f.Resize N p).planeBytes p
      = (f.planeBytes p).take N ++ List.replicate (N - (f.planeBytes p).length) 0 ∧
    (f.Resize N p).GetDataSize p = N ∧
    ((f.Resize N p).planeBytes p).take (min N (f.planeBytes p).length)
      = (f.planeBytes p).take (min N (f.planeBytes p).length) ∧
    (∀ i : Nat, (f.planeBytes p).length ≤ i → i < N →
      (f.Resize N p).GetByteAt (i : Int) p = some 0) ∧
    (f.GetPlainData p = none → (f.Resize N p).planeBytes p = List.replicate N 0) ∧
    (N ≤ (f.planeBytes p).length → (f.Resize N p).planeBytes p = (f.planeBytes p).take N) := by
  have hbytes : (f.Resize N p).planeBytes p
      = (f.planeBytes p).take N ++ List.replicate (N - (f.planeBytes p).length) 0 := by
    simp only [planeBytes_eq, Resize, mapAt_mapModify_same, Vec.resize]
  refine ⟨hbytes, ?_, ?_, ?_, ?_, ?_⟩
  · simp only [GetDataSize_eq, Resize, mapAt_mapModify_same, Vec.resize, List.length_append,
      List.length_take, List.length_replicate]
    omega
  · rw [hbytes, List.take_append_of_le_length (by simp [List.length_take]),
      List.take_take]
    congr 1
    omega
  · intro i hi hiN
    have hget : (f.Resize N p).GetByteAt (i : Int) p = ((f.Resize N p).planeBytes p)[i]? := by
      simp [GetByteAt, GetPlainData, planeBytes_eq, Resize, mapFind_mapModify_same,
        mapAt_mapModify_same]
    rw [hget, hbytes, List.getElem?_append_right (by simp [List.length_take]; omega)]
    simp only [List.length_take, List.getElem?_replicate]
    rw [if_pos (by omega)]
  · intro h
    have hfind : mapFind f._data_buffer p = none := h
    rw [hbytes, planeBytes_eq]
    simp [mapAt, hfind, Vec.empty]
  · intro hN
    rw [hbytes]
    simp [Nat.sub_eq_zero_of_le hN]

/-- Witness for C20: plane 0 of `sample` holds `[10, 20, 30]`; `Resize(5, 0)`
makes byte 4 zero, `Resize(2, 0)` truncates, and `Resize(3, 5)` on the absent
plane 5 gives three zero bytes. -/
theorem C20_Resize_keeps_prefix_zero_fills_witness :
    ((sample.planeBytes 0).length ≤ 4 ∧ 4 < 5 ∧ (sample.Resize 5 0).GetByteAt ((4 : Nat) : Int) 0
        = some 0) ∧
    (2 ≤ (sample.planeBytes 0).length ∧ (sample.Resize 2 0).planeBytes 0
        = (sample.planeBytes 0).take 2) ∧
    (sample.GetPlainData 5 = none ∧ (sample.Resize 3 5).planeBytes 5 = List.replicate 3 0) :=
  ⟨⟨by decide, by decide,
      (C20_Resize_keeps_prefix_zero_fills sample 0 5).2.2.2.1 4 (by decide) (by decide)⟩,
    ⟨by decide, (C20_Resize_keeps_prefix_zero_fills sample 0 2).2.2.2.2.2 (by decide)⟩,
    ⟨by decide, (C20_Resize_keeps_prefix_zero_fills sample 5 3).2.2.2.2.1 (by decide)⟩⟩

end MediaBuffer
